import Mathlib

/-!
# kodo: coefficient generators, alignment guard and payload layout

A shallow embedding of the layers found in
`src/kodo/random_uniform_symbol_id.hpp`, `src/kodo/recoding_symbol_id.hpp`,
`src/kodo/align_symbol_id_encoder.hpp`, `src/kodo/payload_encoder.hpp` and
`src/kodo/storage_decoder.hpp`, together with the Vandermonde matrix exercised
by `test/src/test_rs_vandermonde_matrix.cpp` and the block partitioning used by
the storage decoder.

Conventions of the embedding

* Raw memory is a map from addresses to byte values; a `uint8_t*` is the
  address it holds and `0` is the null pointer.  `p[i]` is the byte at
  address `p + i`.
* A layer `template<class SuperCoder> class L : public SuperCoder` becomes a
  record holding the state of the wrapped layers (`super`) next to the
  members the layer declares; the operations of the wrapped layers are passed
  as a record of functions.
* `assert(e)` with `e` false is a failed call: the operation returns `none`.
* `uint32_t` values are natural numbers; arithmetic that can leave the
  32-bit range is reduced modulo `2 ^ 32`.
-/

namespace kodo

/-! ## Memory -/

/-- Byte-addressed memory. -/
abbrev Mem := Nat → Nat

/-- The assignment `*addr = value`. -/
def store (mem : Mem) (addr value : Nat) : Mem :=
  fun a => if a = addr then value else mem a

/-- The `n` bytes found at `p`, `p + 1`, ..., `p + n - 1`. -/
def read_bytes (mem : Mem) (p n : Nat) : List Nat :=
  (List.range n).map (fun i => mem (p + i))

/-- The loop `for (uint32_t i = 0; i < n; ++i) body(i)` run on a state `s`. -/
def for_loop {S : Type} (n : Nat) (body : Nat → S → S) (s : S) : S :=
  match n with
  | 0 => s
  | k + 1 => body k (for_loop k body s)

/-- The call `std::copy(first, last, d_first)` on bytes: a forward loop that
assigns `d_first[k] = first[k]` for `k = 0, ..., last - first - 1`. -/
def copy (mem : Mem) (first last d_first : Nat) : Mem :=
  for_loop (last - first) (fun k m => store m (d_first + k) (m (first + k))) mem

/-- Wrap-around of `uint32_t` arithmetic. -/
def u32 (n : Nat) : Nat := n % 2 ^ 32

/-! ## Collaborators that live outside the repository -/

/-- The random source of a generator layer: `m_random_generator` (a
`boost::random::mt19937`) read through `m_distribution` (a
`boost::random::uniform_int_distribution<uint8_t>`, which keeps no state).
`seed v` is the generator state after `m_random_generator.seed(v)`, which
re-initialises the whole state from `v`; `draw g` is the `uint8_t` returned by
`m_distribution(m_random_generator)` in state `g` together with the state the
generator is left in. -/
structure random_source (γ : Type) where
  seed : Nat → γ
  draw : γ → Nat × γ

/-- The finite field type `field_type`, as far as the layers use it:
`fifi::bytes_needed<field_type>(symbols)`. -/
structure field_type where
  bytes_needed : Nat → Nat

/-- Modelled from the spec: `fifi::bytes_needed`, which is declared in the
external header `fifi/fifi_utils.hpp`.  The spec describes it as a function
`bytes_needed(order, symbol_count) -> u32` giving the number of bytes that hold
`symbol_count` coefficients packed at `log2(order)` bits each, rounded up;
`bits` is `log2(order)` and the result is a `uint32_t`. -/
def bytes_needed (bits symbol_count : Nat) : Nat :=
  u32 ((symbol_count * bits + 7) / 8)

/-- The field of the spec with `log2(order) = bits`. -/
def packed_field (bits : Nat) : field_type :=
  { bytes_needed := bytes_needed bits }

/-- The wrapped layers of a symbol id layer: `init` is
`SuperCoder::initialize(symbols, symbol_size)`. -/
structure super_coder (σ : Type) where
  init : σ → Nat → Nat → Option σ

/-- The base factory: the bounds given to `factory(max_symbols,
max_symbol_size)` and returned by `SuperCoder::factory::max_symbols()` and
`SuperCoder::factory::max_symbol_size()`. -/
structure factory where
  max_symbols : Nat
  max_symbol_size : Nat

/-- What a call of `write_id` or `read_id` leaves behind: the coder, the
memory, the pointer stored through the out-parameter `symbol_coefficients`
and the returned value (`0` for `read_id`, which returns nothing). -/
structure id_result (C : Type) where
  coder : C
  mem : Mem
  symbol_coefficients : Nat
  ret : Nat

/-! ### Specification vocabulary for the random source -/

/-- The generator state after `n` draws. -/
def advance {γ : Type} (R : random_source γ) (g : γ) (n : Nat) : γ :=
  match n with
  | 0 => g
  | k + 1 => (R.draw (advance R g k)).2

/-- The `i`-th value drawn from state `g`, counting from `0`. -/
def nth_draw {γ : Type} (R : random_source γ) (g : γ) (i : Nat) : Nat :=
  (R.draw (advance R g i)).1

/-- The first `n` values drawn from state `g`. -/
def draws {γ : Type} (R : random_source γ) (g : γ) (n : Nat) : List Nat :=
  (List.range n).map (nth_draw R g)

/-! ## `random_uniform_symbol_id` -/

/-- Members of `random_uniform_symbol_id<SuperCoder>`. -/
structure random_uniform_symbol_id (σ γ : Type) where
  super : σ
  m_random_generator : γ
  m_id_size : Nat

namespace random_uniform_symbol_id

variable {σ γ : Type}

/-- The function `factory::max_id_size()`. -/
def max_id_size (F : field_type) (f : factory) : Option Nat :=
  let max_symbol_id_size := F.bytes_needed f.max_symbols
  if max_symbol_id_size > 0 then some max_symbol_id_size else none

/-- The function `initialize(symbols, symbol_size)`. -/
def init (S : super_coder σ) (F : field_type)
    (c : random_uniform_symbol_id σ γ) (symbols symbol_size : Nat) :
    Option (random_uniform_symbol_id σ γ) :=
  match S.init c.super symbols symbol_size with
  | none => none
  | some s =>
    let m_id_size := F.bytes_needed symbols
    if m_id_size > 0 then some { c with super := s, m_id_size := m_id_size }
    else none

/-- The function `write_id(symbol_id, symbol_coefficients)`;
`symbol_coefficients` is the address of the out-parameter. -/
def write_id (R : random_source γ) (c : random_uniform_symbol_id σ γ)
    (mem : Mem) (symbol_id symbol_coefficients : Nat) :
    Option (id_result (random_uniform_symbol_id σ γ)) :=
  if symbol_id = 0 then none
  else if symbol_coefficients = 0 then none
  else
    let r := for_loop c.m_id_size
      (fun i (st : γ × Mem) =>
        let d := R.draw st.1
        (d.2, store st.2 (symbol_id + i) d.1))
      (c.m_random_generator, mem)
    some { coder := { c with m_random_generator := r.1 }
           mem := r.2
           symbol_coefficients := symbol_id
           ret := c.m_id_size }

/-- The function `read_id(symbol_id, symbol_coefficients)`. -/
def read_id (c : random_uniform_symbol_id σ γ)
    (mem : Mem) (symbol_id symbol_coefficients : Nat) :
    Option (id_result (random_uniform_symbol_id σ γ)) :=
  if symbol_id = 0 then none
  else if symbol_coefficients = 0 then none
  else some { coder := c, mem := mem, symbol_coefficients := symbol_id, ret := 0 }

/-- The function `id_size()`. -/
def id_size (c : random_uniform_symbol_id σ γ) : Nat := c.m_id_size

/-- The function `seed(seed)`. -/
def seed (R : random_source γ) (c : random_uniform_symbol_id σ γ) (v : Nat) :
    random_uniform_symbol_id σ γ :=
  { c with m_random_generator := R.seed v }

end random_uniform_symbol_id

/-! ## `recoding_symbol_id` -/

/-- Members of `recoding_symbol_id<SuperCoder>`; `m_coefficients` is the
"buffer for the recoding coefficients". -/
structure recoding_symbol_id (σ γ : Type) where
  super : σ
  m_random_generator : γ
  m_id_size : Nat
  m_coefficients : List Nat

namespace recoding_symbol_id

variable {σ γ : Type}

/-- The function `initialize(symbols, symbol_size)`. -/
def init (S : super_coder σ) (F : field_type)
    (c : recoding_symbol_id σ γ) (symbols symbol_size : Nat) :
    Option (recoding_symbol_id σ γ) :=
  match S.init c.super symbols symbol_size with
  | none => none
  | some s =>
    let m_id_size := F.bytes_needed symbols
    if m_id_size > 0 then some { c with super := s, m_id_size := m_id_size }
    else none

/-- The function `write_id(symbol_id, symbol_coefficients)`. -/
def write_id (R : random_source γ) (c : recoding_symbol_id σ γ)
    (mem : Mem) (symbol_id symbol_coefficients : Nat) :
    Option (id_result (recoding_symbol_id σ γ)) :=
  if symbol_id = 0 then none
  else if symbol_coefficients = 0 then none
  else
    let r := for_loop c.m_id_size
      (fun i (st : γ × Mem) =>
        let d := R.draw st.1
        (d.2, store st.2 (symbol_id + i) d.1))
      (c.m_random_generator, mem)
    some { coder := { c with m_random_generator := r.1 }
           mem := r.2
           symbol_coefficients := symbol_id
           ret := c.m_id_size }

/-- The function `id_size()`. -/
def id_size (c : recoding_symbol_id σ γ) : Nat := c.m_id_size

/-- The function `seed(seed)`. -/
def seed (R : random_source γ) (c : recoding_symbol_id σ γ) (v : Nat) :
    recoding_symbol_id σ γ :=
  { c with m_random_generator := R.seed v }

end recoding_symbol_id

/-- Test harness: `k` successive `write_id` calls of one generator,
one per entry `(symbol_id, symbol_coefficients)` of the list, each call
starting from the coder and memory the previous one left; the result lists the
coefficient vector each call left in its `symbol_id` buffer. -/
def random_uniform_symbol_id.write_ids {σ γ : Type} (R : random_source γ)
    (c : random_uniform_symbol_id σ γ) (mem : Mem) :
    List (Nat × Nat) → Option (List (List Nat))
  | [] => some []
  | b :: rest =>
    match random_uniform_symbol_id.write_id R c mem b.1 b.2 with
    | none => none
    | some r =>
      match random_uniform_symbol_id.write_ids R r.coder r.mem rest with
      | none => none
      | some vs => some (read_bytes r.mem b.1 r.ret :: vs)

/-- Test harness: `k` successive `write_id` calls of one recoding
generator, as `random_uniform_symbol_id.write_ids`. -/
def recoding_symbol_id.write_ids {σ γ : Type} (R : random_source γ)
    (c : recoding_symbol_id σ γ) (mem : Mem) :
    List (Nat × Nat) → Option (List (List Nat))
  | [] => some []
  | b :: rest =>
    match recoding_symbol_id.write_id R c mem b.1 b.2 with
    | none => none
    | some r =>
      match recoding_symbol_id.write_ids R r.coder r.mem rest with
      | none => none
      | some vs => some (read_bytes r.mem b.1 r.ret :: vs)

/-- The coefficient vectors of `k` successive calls that each draw `n` bytes,
starting from generator state `g`. -/
def successive_draws {γ : Type} (R : random_source γ) (n : Nat) (g : γ) :
    Nat → List (List Nat)
  | 0 => []
  | k + 1 => draws R g n :: successive_draws R n (advance R g n) k

/-- Spec-side definition: the field-weighted sum of the held coefficient
vectors, `scalars[0] * vectors[0] + scalars[1] * vectors[1] + ...`, each of
`n` coefficients, for a field with addition `add` and multiplication `mul`
(the field arithmetic itself is external to the repository). -/
def weighted_sum (add mul : Nat → Nat → Nat) (n : Nat) (scalars : List Nat)
    (vectors : List (List Nat)) : List Nat :=
  (List.zip scalars vectors).foldl
    (fun acc sv => List.zipWith add acc (sv.2.map (mul sv.1)))
    (List.replicate n 0)

/-! ## Encoder layers -/

/-- What a call of `encode` leaves behind: the coder, the memory and the
returned `uint32_t`. -/
structure encode_result (C : Type) where
  coder : C
  mem : Mem
  ret : Nat

/-- The wrapped layers of an encoder layer: `SuperCoder::initialize`,
`symbol_size()`, `symbol_id_size()`, `header_size()` and
`encode(symbol_data, symbol_id)`.  A coder is bound to one symbol size for its
lifetime (`symbol_size()` is a `const` accessor of a value that only
`initialize` sets), which `encode_symbol_size` records. -/
structure super_encoder (σ : Type) where
  init : σ → Nat → Nat → Option σ
  symbol_size : σ → Nat
  symbol_id_size : σ → Nat
  header_size : σ → Nat
  encode : σ → Mem → Nat → Nat → encode_result σ
  encode_symbol_size : ∀ s mem symbol_data symbol_id,
    symbol_size (encode s mem symbol_data symbol_id).coder = symbol_size s

/-- The vector `m_temp_id`: the address `&m_temp_id[0]` of its storage and
its `size()`. -/
structure aligned_vector where
  data : Nat
  size : Nat

/-- Members of `align_symbol_id_encoder<SuperCoder>`. -/
structure align_symbol_id_encoder (σ : Type) where
  super : σ
  m_temp_id : aligned_vector

namespace align_symbol_id_encoder

variable {σ : Type}

/-- The function `initialize(symbols, symbol_size)`.  `is_aligned` is
`sak::is_aligned` and `storage` the address at which
`sak::aligned_allocator` places the elements of `m_temp_id` for
`resize(SuperCoder::symbol_id_size())`; both are external. -/
def init (W : super_encoder σ) (is_aligned : Nat → Bool)
    (c : align_symbol_id_encoder σ) (symbols symbol_size storage : Nat) :
    Option (align_symbol_id_encoder σ) :=
  match W.init c.super symbols symbol_size with
  | none => none
  | some s =>
    let m_temp_id : aligned_vector := { data := storage, size := W.symbol_id_size s }
    if is_aligned m_temp_id.data then some { super := s, m_temp_id := m_temp_id }
    else none

/-- The function `encode(symbol_data, symbol_id)`. -/
def encode (W : super_encoder σ) (is_aligned : Nat → Bool)
    (c : align_symbol_id_encoder σ) (mem : Mem) (symbol_data symbol_id : Nat) :
    Option (encode_result (align_symbol_id_encoder σ)) :=
  if symbol_data = 0 then none
  else if symbol_id = 0 then none
  else if is_aligned symbol_id = false then
    let r := W.encode c.super mem symbol_data c.m_temp_id.data
    let used := r.ret
    some { coder := { c with super := r.coder }
           mem := copy r.mem c.m_temp_id.data (c.m_temp_id.data + used) symbol_id
           ret := used }
  else
    let r := W.encode c.super mem symbol_data symbol_id
    some { coder := { c with super := r.coder }, mem := r.mem, ret := r.ret }

end align_symbol_id_encoder

namespace payload_encoder

variable {σ : Type}

/-- The function `encode(payload)`.  The layer declares no members, so its
state is the state of the wrapped layers.  The two operands of the returned
sum are unsequenced; by `encode_symbol_size` both orders give the same value. -/
def encode (W : super_encoder σ) (s : σ) (mem : Mem) (payload : Nat) :
    Option (encode_result σ) :=
  if payload = 0 then none
  else
    let symbol_data := payload
    let symbol_id := payload + W.symbol_size s
    let r := W.encode s mem symbol_data symbol_id
    some { coder := r.coder, mem := r.mem, ret := u32 (r.ret + W.symbol_size r.coder) }

/-- The function `payload_size()`. -/
def payload_size (W : super_encoder σ) (s : σ) : Nat :=
  u32 (W.symbol_size s + W.header_size s)

end payload_encoder

/-! ### Specification vocabulary for the encoder layers -/

/-- Memory after the bytes of `bytes` have been written at `p`, `p + 1`, .... -/
def store_bytes (mem : Mem) (p : Nat) (bytes : List Nat) : Mem :=
  fun a => if p ≤ a ∧ a < p + bytes.length then bytes.getD (a - p) 0 else mem a

/-- The id output of the wrapped `encode` does not depend on the address of
the id buffer: handed any two aligned id buffers, it reports the same number
of bytes and leaves the same bytes in both. -/
def id_output_address_independent {σ : Type} (W : super_encoder σ)
    (is_aligned : Nat → Bool) : Prop :=
  ∀ s mem symbol_data p q, is_aligned p = true → is_aligned q = true →
    (W.encode s mem symbol_data p).ret = (W.encode s mem symbol_data q).ret ∧
    read_bytes (W.encode s mem symbol_data p).mem p (W.encode s mem symbol_data p).ret
      = read_bytes (W.encode s mem symbol_data q).mem q (W.encode s mem symbol_data p).ret

/-- What `initialize` establishes for the scratch vector: its storage is
aligned and it holds `symbol_id_size()` bytes. -/
def scratch_ready {σ : Type} (W : super_encoder σ) (is_aligned : Nat → Bool)
    (c : align_symbol_id_encoder σ) : Prop :=
  is_aligned c.m_temp_id.data = true ∧ c.m_temp_id.size = W.symbol_id_size c.super

/-! ## The Vandermonde matrix -/

/-- Modelled from the spec: the order `q` of `fifi::binary8`, the field of the
Vandermonde test ("field order 256 (one byte per coefficient)"); the field
lives in the external library fifi. -/
def binary8_order : Nat := 256

/-- Modelled from the spec: the rounds of a multiplication in
`fifi::binary8`, shift and add with reduction by the field's polynomial.  The
spec fixes the polynomial through "powers of 2 mod the field's reduction
polynomial" being `1, 2, ..., 128, 29, 58`: `2 ^ 8` reduces to `29`, so the
polynomial is `x^8 + x^4 + x^3 + x^2 + 1`, that is `285`. -/
def binary8_multiply_loop (rounds a b acc : Nat) : Nat :=
  match rounds with
  | 0 => acc
  | n + 1 =>
    binary8_multiply_loop n (if 256 ≤ a * 2 then (a * 2) ^^^ 285 else a * 2) (b / 2)
      (if b % 2 = 1 then acc ^^^ a else acc)

/-- Modelled from the spec: the product of two elements of `fifi::binary8`
(the field arithmetic is external). -/
def binary8_multiply (a b : Nat) : Nat := binary8_multiply_loop 8 a b 0

/-- Modelled from the spec: `pow(a, n)` in `fifi::binary8`, with
`pow(a, 0) = 1`. -/
def binary8_power (a n : Nat) : Nat :=
  match n with
  | 0 => 1
  | k + 1 => binary8_multiply a (binary8_power a k)

/-- Modelled from the spec: the `i`-th nonzero element of the field, counted
from `0`: the `i`-th power of the element `2`, so that element `0` is `1` (row
`0` is all ones) and element `1` is `2` (row `1` holds the powers of `2`). -/
def nonzero_element (i : Nat) : Nat := binary8_power 2 i

/-- Modelled from the spec: `kodo::vandermonde_matrix<fifi::binary8>`, whose
header `kodo/rs/vandermonde_matrix.h` is not among the sources (only its test
is).  It holds `symbols()` and the precomputed table of `q - 1` rows of
`symbols` coefficients each. -/
structure vandermonde_matrix where
  m_symbols : Nat
  m_matrix : List (List Nat)

namespace vandermonde_matrix

/-- Modelled from the spec: construction of the table for `symbols`
coefficients per row, one multiplication per entry: the elements
`1, 2, 2^2, ...` of the `q - 1` rows are obtained by repeated multiplication
by `2`, the entries of a row by repeated multiplication by its element. -/
def construct (symbols : Nat) : vandermonde_matrix :=
  { m_symbols := symbols
    m_matrix := (List.iterate (binary8_multiply 2) 1 (binary8_order - 1)).map
      (fun e => List.iterate (binary8_multiply e) 1 symbols) }

/-- Modelled from the spec: `symbols()`. -/
def symbols (m : vandermonde_matrix) : Nat := m.m_symbols

/-- Modelled from the spec: `coefficients(row)`, the row of the table;
requesting a row `>= q - 1` is a fatal precondition violation. -/
def coefficients (m : vandermonde_matrix) (row : Nat) : Option (List Nat) :=
  if row < binary8_order - 1 then m.m_matrix[row]? else none

end vandermonde_matrix

/-- The array `test_values` of `test/src/test_rs_vandermonde_matrix.cpp`, in
the order of the source and written one matrix row (ten values) per line. -/
def test_values : List Nat := List.flatten [
  [1, 1, 1, 1, 1, 1, 1, 1, 1, 1],
  [1, 2, 4, 8, 16, 32, 64, 128, 29, 58],
  [1, 4, 16, 64, 29, 116, 205, 19, 76, 45],
  [1, 8, 64, 58, 205, 38, 45, 117, 143, 12],
  [1, 16, 29, 205, 76, 180, 143, 24, 157, 37],
  [1, 32, 116, 38, 180, 3, 96, 156, 106, 193],
  [1, 64, 205, 45, 143, 96, 37, 181, 70, 80],
  [1, 128, 19, 117, 24, 156, 181, 140, 93, 161],
  [1, 29, 76, 143, 157, 106, 70, 93, 95, 101],
  [1, 58, 45, 12, 37, 193, 80, 161, 101, 231],
  [1, 116, 180, 96, 106, 5, 185, 94, 253, 223],
  [1, 232, 234, 39, 238, 160, 97, 60, 254, 134],
  [1, 205, 143, 37, 70, 185, 101, 107, 217, 208],
  [1, 135, 6, 53, 20, 190, 120, 163, 13, 237],
  [1, 19, 24, 181, 93, 94, 107, 67, 129, 102],
  [1, 38, 96, 193, 185, 15, 223, 26, 59, 169],
  [1, 76, 157, 70, 95, 253, 217, 129, 133, 168],
  [1, 152, 78, 10, 153, 214, 68, 147, 79, 146],
  [1, 45, 37, 80, 101, 223, 208, 102, 168, 191],
  [1, 90, 148, 186, 30, 226, 62, 109, 73, 179],
  [1, 180, 106, 185, 253, 17, 59, 132, 230, 150],
  [1, 117, 181, 161, 107, 26, 102, 41, 252, 87],
  [1, 234, 238, 97, 254, 103, 184, 57, 227, 7],
  [1, 201, 159, 47, 91, 124, 33, 209, 149, 166],
  [1, 143, 70, 101, 217, 59, 168, 252, 130, 195],
  [1, 3, 5, 15, 17, 51, 85, 255, 28, 36],
  [1, 6, 20, 120, 13, 46, 228, 98, 81, 251],
  [1, 12, 80, 231, 208, 169, 191, 87, 195, 125],
  [1, 24, 93, 107, 129, 132, 252, 200, 18, 173],
  [1, 48, 105, 127, 248, 77, 241, 224, 247, 64],
  [1, 96, 185, 223, 59, 85, 150, 89, 44, 38],
  [1, 192, 222, 182, 151, 114, 110, 155, 27, 143],
  [1, 157, 95, 217, 133, 230, 130, 18, 2, 39],
  [1, 39, 97, 134, 184, 145, 7, 245, 58, 181],
  [1, 78, 153, 68, 79, 215, 221, 11, 152, 10],
  [1, 156, 94, 26, 132, 255, 89, 233, 3, 185],
  [1, 37, 101, 208, 168, 150, 195, 173, 39, 47],
  [1, 74, 137, 206, 82, 55, 138, 16, 212, 120],
  [1, 148, 30, 62, 73, 174, 61, 232, 140, 127],
  [1, 53, 120, 237, 228, 100, 251, 45, 186, 217],
  [1, 106, 253, 59, 230, 28, 44, 3, 190, 26],
  [1, 212, 211, 197, 198, 167, 207, 157, 202, 62],
  [1, 181, 107, 102, 252, 89, 173, 53, 231, 197],
  [1, 119, 177, 23, 123, 239, 8, 159, 225, 184],
  [1, 238, 254, 184, 227, 172, 58, 40, 175, 21],
  [1, 193, 223, 169, 150, 36, 38, 185, 26, 85],
  [1, 159, 91, 33, 149, 244, 117, 194, 31, 115],
  [1, 35, 113, 21, 165, 235, 12, 137, 118, 252],
  [1, 70, 217, 168, 130, 44, 39, 231, 23, 219],
  [1, 140, 67, 41, 200, 233, 53, 254, 158, 110],
  [1, 5, 17, 85, 28, 108, 193, 226, 77, 100],
  [1, 10, 68, 146, 221, 1, 10, 68, 146, 221],
  [1, 20, 13, 228, 81, 32, 186, 189, 209, 242],
  [1, 40, 52, 115, 121, 116, 161, 248, 229, 138],
  [1, 80, 208, 191, 195, 38, 47, 197, 219, 245],
  [1, 160, 103, 145, 172, 180, 15, 46, 55, 44],
  [1, 93, 129, 252, 18, 3, 231, 158, 25, 54],
  [1, 186, 62, 179, 61, 96, 127, 168, 56, 8],
  [1, 105, 248, 241, 247, 156, 182, 170, 162, 205],
  [1, 210, 199, 219, 203, 106, 134, 183, 155, 117],
  [1, 185, 59, 150, 44, 193, 26, 145, 36, 96],
  [1, 111, 236, 196, 250, 5, 206, 123, 243, 53],
  [1, 222, 151, 110, 27, 160, 237, 75, 88, 70],
  [1, 161, 102, 87, 173, 185, 197, 110, 54, 186],
  [1, 95, 133, 130, 2, 190, 23, 25, 4, 97],
  [1, 190, 46, 100, 32, 94, 169, 28, 116, 15],
  [1, 97, 184, 7, 58, 15, 21, 166, 45, 107],
  [1, 194, 218, 56, 135, 253, 41, 249, 6, 182],
  [1, 153, 79, 221, 152, 214, 146, 69, 78, 68],
  [1, 47, 33, 166, 117, 223, 115, 61, 181, 206],
  [1, 94, 132, 89, 3, 226, 145, 235, 5, 59],
  [1, 188, 42, 242, 48, 17, 179, 176, 105, 23],
  [1, 101, 168, 195, 39, 26, 219, 54, 97, 33],
  [1, 202, 154, 86, 74, 103, 196, 2, 137, 41],
  [1, 137, 82, 138, 212, 124, 87, 29, 211, 228],
  [1, 15, 85, 36, 193, 59, 100, 38, 223, 145],
  [1, 30, 73, 61, 140, 51, 56, 234, 67, 241],
  [1, 60, 57, 245, 40, 46, 166, 48, 52, 196],
  [1, 120, 228, 251, 186, 169, 242, 37, 62, 130],
  [1, 240, 183, 139, 111, 132, 86, 119, 236, 56],
  [1, 253, 230, 44, 190, 77, 36, 5, 46, 89],
  [1, 231, 191, 125, 47, 85, 245, 186, 33, 86],
  [1, 211, 198, 207, 202, 114, 139, 95, 154, 61],
  [1, 187, 63, 54, 60, 230, 125, 188, 57, 139],
  [1, 107, 252, 173, 231, 145, 54, 120, 191, 207],
  [1, 214, 215, 1, 214, 215, 1, 214, 215, 1],
  [1, 177, 123, 8, 225, 255, 64, 91, 171, 58],
  [1, 127, 241, 64, 182, 150, 205, 134, 110, 45],
  [1, 254, 227, 58, 175, 55, 45, 52, 50, 12],
  [1, 225, 171, 205, 34, 174, 143, 31, 112, 37],
  [1, 223, 150, 38, 26, 100, 96, 59, 89, 193],
  [1, 163, 98, 45, 189, 28, 37, 204, 43, 80],
  [1, 91, 149, 117, 31, 167, 181, 218, 72, 161],
  [1, 182, 110, 143, 237, 89, 70, 21, 251, 101],
  [1, 113, 165, 12, 118, 239, 80, 82, 176, 231],
  [1, 226, 174, 96, 51, 172, 185, 114, 108, 223],
  [1, 217, 130, 39, 23, 36, 97, 191, 8, 134],
  [1, 175, 50, 37, 109, 244, 101, 229, 232, 208],
  [1, 67, 200, 53, 158, 235, 120, 227, 90, 237],
  [1, 134, 7, 181, 21, 44, 107, 196, 12, 102],
  [1, 17, 28, 193, 77, 233, 223, 174, 156, 169],
  [1, 34, 112, 70, 164, 108, 217, 141, 119, 168],
  [1, 68, 221, 10, 146, 1, 68, 221, 10, 146],
  [1, 136, 83, 80, 213, 32, 208, 178, 210, 191],
  [1, 13, 81, 186, 209, 116, 62, 43, 194, 179],
  [1, 26, 89, 185, 145, 38, 59, 36, 15, 150],
  [1, 52, 121, 161, 229, 180, 102, 247, 187, 87],
  [1, 104, 249, 97, 246, 3, 184, 22, 163, 7],
  [1, 208, 195, 47, 219, 96, 33, 207, 134, 166],
  [1, 189, 43, 101, 49, 156, 168, 71, 104, 195],
  [1, 103, 172, 15, 55, 106, 85, 32, 124, 36],
  [1, 206, 138, 120, 87, 193, 228, 205, 197, 251],
  [1, 129, 18, 231, 25, 5, 191, 90, 92, 125],
  [1, 31, 72, 107, 141, 160, 252, 6, 66, 173],
  [1, 62, 61, 127, 56, 185, 241, 39, 41, 64],
  [1, 124, 244, 223, 167, 190, 150, 106, 114, 38],
  [1, 248, 247, 182, 162, 94, 110, 35, 99, 143],
  [1, 237, 251, 217, 242, 15, 130, 80, 179, 39],
  [1, 199, 203, 134, 155, 253, 7, 111, 75, 181],
  [1, 147, 11, 68, 69, 214, 221, 153, 220, 10],
  [1, 59, 44, 26, 36, 223, 89, 15, 100, 185],
  [1, 118, 176, 208, 122, 226, 195, 211, 224, 47],
  [1, 236, 250, 206, 243, 17, 138, 225, 178, 120],
  [1, 197, 207, 62, 139, 26, 61, 217, 86, 127],
  [1, 151, 27, 237, 88, 103, 251, 136, 144, 217],
  [1, 51, 108, 59, 233, 124, 44, 103, 235, 26],
  [1, 102, 173, 197, 54, 59, 207, 237, 125, 62],
  [1, 204, 142, 102, 71, 51, 173, 151, 216, 197],
  [1, 133, 2, 23, 4, 46, 8, 92, 16, 184],
  [1, 23, 8, 184, 64, 169, 58, 33, 205, 21],
  [1, 46, 32, 169, 116, 132, 38, 77, 180, 85],
  [1, 92, 128, 33, 19, 77, 117, 73, 24, 115],
  [1, 184, 58, 21, 45, 85, 12, 115, 37, 252],
  [1, 109, 232, 168, 234, 114, 39, 63, 238, 219],
  [1, 218, 135, 41, 6, 230, 53, 246, 20, 110],
  [1, 169, 38, 85, 96, 145, 193, 150, 185, 100],
  [1, 79, 152, 146, 78, 215, 10, 220, 153, 221],
  [1, 158, 90, 228, 148, 255, 186, 50, 30, 242],
  [1, 33, 117, 115, 181, 150, 161, 56, 107, 138],
  [1, 66, 201, 191, 159, 55, 47, 81, 91, 245],
  [1, 132, 3, 145, 5, 174, 15, 239, 17, 44],
  [1, 21, 12, 252, 80, 100, 231, 138, 208, 54],
  [1, 42, 48, 179, 105, 28, 127, 122, 248, 8],
  [1, 84, 192, 241, 222, 167, 182, 203, 151, 205],
  [1, 168, 39, 219, 97, 89, 134, 125, 184, 117],
  [1, 77, 156, 150, 94, 239, 26, 108, 132, 96],
  [1, 154, 74, 196, 137, 172, 206, 4, 82, 53],
  [1, 41, 53, 110, 120, 36, 237, 58, 228, 70],
  [1, 82, 212, 87, 211, 244, 197, 76, 198, 186],
  [1, 164, 119, 130, 177, 235, 23, 201, 123, 97],
  [1, 85, 193, 100, 223, 44, 169, 96, 150, 15],
  [1, 170, 35, 7, 113, 233, 21, 74, 165, 107],
  [1, 73, 140, 56, 67, 108, 41, 238, 200, 182],
  [1, 146, 10, 221, 68, 1, 146, 10, 221, 68],
  [1, 57, 40, 166, 52, 32, 115, 105, 121, 206],
  [1, 114, 160, 89, 103, 116, 145, 190, 172, 59],
  [1, 228, 186, 242, 62, 38, 179, 101, 61, 23],
  [1, 213, 210, 195, 199, 180, 219, 240, 203, 33],
  [1, 183, 111, 86, 236, 3, 196, 177, 250, 41],
  [1, 115, 161, 138, 102, 96, 87, 182, 173, 228],
  [1, 230, 190, 36, 46, 156, 100, 17, 32, 145],
  [1, 209, 194, 61, 218, 106, 56, 104, 135, 241],
  [1, 191, 47, 245, 33, 193, 166, 62, 117, 196],
  [1, 99, 188, 251, 42, 5, 242, 118, 48, 130],
  [1, 198, 202, 139, 154, 160, 86, 133, 74, 56],
  [1, 145, 15, 44, 85, 185, 36, 169, 193, 89],
  [1, 63, 60, 125, 57, 190, 245, 42, 40, 86],
  [1, 126, 240, 207, 183, 94, 139, 164, 111, 61],
  [1, 252, 231, 54, 191, 15, 125, 228, 47, 139],
  [1, 229, 187, 173, 63, 253, 54, 99, 60, 207],
  [1, 215, 214, 1, 215, 214, 1, 215, 214, 1],
  [1, 179, 127, 8, 241, 223, 64, 219, 182, 58],
  [1, 123, 225, 64, 171, 226, 205, 149, 34, 45],
  [1, 246, 163, 58, 98, 17, 45, 65, 189, 12],
  [1, 241, 182, 205, 110, 26, 143, 7, 237, 37],
  [1, 255, 226, 38, 174, 103, 96, 167, 51, 193],
  [1, 227, 175, 45, 50, 124, 37, 121, 109, 80],
  [1, 219, 134, 117, 7, 59, 181, 86, 21, 161],
  [1, 171, 34, 143, 112, 51, 70, 72, 164, 101],
  [1, 75, 136, 12, 83, 46, 80, 243, 213, 231],
  [1, 150, 26, 96, 89, 169, 185, 44, 145, 223],
  [1, 49, 104, 39, 249, 132, 97, 131, 246, 134],
  [1, 98, 189, 37, 43, 77, 101, 142, 49, 208],
  [1, 196, 206, 53, 138, 85, 120, 64, 87, 237],
  [1, 149, 31, 181, 72, 114, 107, 135, 141, 102],
  [1, 55, 124, 193, 244, 230, 223, 180, 167, 169],
  [1, 110, 237, 70, 251, 145, 217, 12, 242, 168],
  [1, 220, 147, 10, 11, 215, 68, 78, 69, 146],
  [1, 165, 118, 80, 176, 255, 208, 212, 122, 191],
  [1, 87, 197, 186, 207, 150, 62, 70, 139, 179],
  [1, 174, 51, 185, 108, 55, 59, 160, 233, 150],
  [1, 65, 204, 161, 142, 174, 102, 222, 71, 87],
  [1, 130, 23, 97, 8, 100, 184, 47, 64, 7],
  [1, 25, 92, 47, 128, 28, 33, 30, 19, 166],
  [1, 50, 109, 101, 232, 167, 168, 187, 234, 195],
  [1, 100, 169, 15, 38, 89, 85, 223, 96, 36],
  [1, 200, 158, 120, 90, 239, 228, 175, 148, 251],
  [1, 141, 66, 231, 201, 172, 191, 13, 159, 125],
  [1, 7, 21, 107, 12, 36, 252, 206, 80, 173],
  [1, 14, 84, 127, 192, 244, 241, 199, 222, 64],
  [1, 28, 77, 223, 156, 235, 150, 51, 94, 38],
  [1, 56, 41, 182, 53, 44, 110, 184, 120, 143],
  [1, 112, 164, 217, 119, 233, 130, 66, 177, 39],
  [1, 224, 170, 134, 35, 108, 7, 154, 113, 181],
  [1, 221, 146, 68, 10, 1, 221, 146, 68, 10],
  [1, 167, 114, 26, 160, 32, 89, 230, 103, 185],
  [1, 83, 213, 208, 210, 116, 195, 126, 199, 47],
  [1, 166, 115, 206, 161, 38, 138, 241, 102, 120],
  [1, 81, 209, 62, 194, 180, 61, 49, 218, 127],
  [1, 162, 99, 237, 188, 3, 251, 165, 42, 217],
  [1, 89, 145, 59, 15, 96, 44, 100, 85, 26],
  [1, 178, 126, 197, 240, 156, 207, 112, 183, 62],
  [1, 121, 229, 102, 187, 106, 173, 162, 63, 197],
  [1, 242, 179, 23, 127, 193, 8, 195, 241, 184],
  [1, 249, 246, 184, 163, 5, 58, 9, 98, 21],
  [1, 239, 255, 169, 226, 160, 38, 244, 174, 85],
  [1, 195, 219, 33, 134, 185, 117, 139, 7, 115],
  [1, 155, 75, 21, 136, 190, 12, 250, 83, 252],
  [1, 43, 49, 168, 104, 94, 39, 216, 249, 219],
  [1, 86, 196, 41, 206, 15, 53, 8, 138, 110],
  [1, 172, 55, 85, 124, 253, 193, 116, 244, 100],
  [1, 69, 220, 146, 147, 214, 10, 152, 11, 221],
  [1, 138, 87, 228, 197, 223, 186, 143, 207, 242],
  [1, 9, 65, 115, 204, 226, 161, 192, 142, 138],
  [1, 18, 25, 191, 92, 17, 47, 148, 128, 245],
  [1, 36, 100, 145, 169, 26, 15, 193, 38, 44],
  [1, 72, 141, 252, 66, 103, 231, 20, 201, 54],
  [1, 144, 14, 179, 84, 124, 127, 210, 192, 8],
  [1, 61, 56, 241, 41, 59, 182, 97, 53, 205],
  [1, 122, 224, 219, 170, 51, 134, 202, 35, 117],
  [1, 244, 167, 150, 114, 46, 26, 253, 160, 96],
  [1, 245, 166, 196, 115, 169, 206, 127, 161, 53],
  [1, 247, 162, 110, 99, 132, 237, 113, 188, 70],
  [1, 243, 178, 87, 126, 77, 197, 34, 240, 186],
  [1, 251, 242, 130, 179, 85, 23, 208, 127, 97],
  [1, 235, 239, 100, 255, 114, 169, 124, 226, 15],
  [1, 203, 155, 7, 75, 230, 21, 236, 136, 107],
  [1, 139, 86, 56, 196, 145, 41, 23, 206, 182],
  [1, 11, 69, 221, 220, 215, 146, 79, 147, 68],
  [1, 22, 9, 166, 65, 255, 115, 84, 204, 206],
  [1, 44, 36, 89, 100, 150, 145, 85, 169, 59],
  [1, 88, 144, 242, 14, 55, 179, 213, 84, 23],
  [1, 176, 122, 195, 224, 174, 219, 198, 170, 33],
  [1, 125, 245, 86, 166, 100, 196, 179, 115, 41],
  [1, 250, 243, 138, 178, 28, 87, 171, 126, 228],
  [1, 233, 235, 36, 239, 167, 100, 55, 255, 145],
  [1, 207, 139, 61, 86, 89, 56, 130, 196, 241],
  [1, 131, 22, 245, 9, 239, 166, 14, 65, 196],
  [1, 27, 88, 251, 144, 172, 242, 83, 14, 130],
  [1, 54, 125, 139, 245, 36, 86, 242, 166, 56],
  [1, 108, 233, 44, 235, 244, 36, 172, 239, 89],
  [1, 216, 131, 125, 22, 235, 245, 144, 9, 86],
  [1, 173, 54, 207, 125, 44, 139, 251, 245, 61],
  [1, 71, 216, 54, 131, 233, 125, 88, 22, 139],
  [1, 142, 71, 173, 216, 108, 54, 27, 131, 207]]

/-! ## Partitioning and the storage decoder -/

/-- Modelled from the spec: `rfc5052_partitioning_scheme`, whose header
`rfc5052_partitioning_scheme.hpp` is not among the sources.  The spec makes it
a pure function of `(max_symbols, max_symbol_size, object_size)`. -/
structure rfc5052_partitioning_scheme where
  m_max_symbols : Nat
  m_max_symbol_size : Nat
  m_object_size : Nat

namespace rfc5052_partitioning_scheme

/-- Modelled from the spec: the bytes of a full block, `max_symbols` symbols of
`max_symbol_size` bytes. -/
def block_capacity (p : rfc5052_partitioning_scheme) : Nat :=
  p.m_max_symbols * p.m_max_symbol_size

/-- Modelled from the spec: `block_count = ceil(object_size / (max_symbols *
max_symbol_size))`, minimum 1. -/
def block_count (p : rfc5052_partitioning_scheme) : Nat :=
  max 1 ((p.m_object_size + p.block_capacity - 1) / p.block_capacity)

/-- Modelled from the spec: the length of a block within the object.  Every
block takes a full block of the object except the last, which covers exactly
the remainder of `object_size`. -/
def length (p : rfc5052_partitioning_scheme) (block_id : Nat) : Nat :=
  min p.block_capacity (p.m_object_size - block_id * p.block_capacity)

/-- Modelled from the spec: `byte_offset(i)` is the sum of the lengths of
blocks `0..i-1`. -/
def byte_offset (p : rfc5052_partitioning_scheme) (block_id : Nat) : Nat :=
  ((List.range block_id).map p.length).sum

/-- Modelled from the spec: the symbol size of a block, `max_symbol_size`. -/
def symbol_size (p : rfc5052_partitioning_scheme) (_block_id : Nat) : Nat :=
  p.m_max_symbol_size

/-- Modelled from the spec: the symbols of a block: `max_symbols`, except for
the last block, which has the fewer symbols needed to cover the remainder, the
trailing symbol being padded to a whole symbol. -/
def symbols (p : rfc5052_partitioning_scheme) (block_id : Nat) : Nat :=
  if block_id + 1 < p.block_count then p.m_max_symbols
  else (p.length block_id + p.m_max_symbol_size - 1) / p.m_max_symbol_size

/-- Modelled from the spec: `total_block_size()`, the sum of all blocks'
`symbols * symbol_size`. -/
def total_block_size (p : rfc5052_partitioning_scheme) : Nat :=
  ((List.range p.block_count).map (fun i => p.symbols i * p.symbol_size i)).sum

end rfc5052_partitioning_scheme

/-- The template parameter `BlockPartitioning` of `storage_decoder`, as far
as the class uses it: the constructor
`partitioning(max_symbols, max_symbol_size, object_size)`, `byte_offset`,
`total_block_size`, and the block shape `symbols` and `symbol_size` used when
a block's decoder is built. -/
structure block_partitioning (π : Type) where
  construct : Nat → Nat → Nat → π
  byte_offset : π → Nat → Nat
  total_block_size : π → Nat
  symbols : π → Nat → Nat
  symbol_size : π → Nat → Nat

/-- The default `BlockPartitioning = rfc5052_partitioning_scheme`. -/
def rfc5052 : block_partitioning rfc5052_partitioning_scheme :=
  { construct := fun max_symbols max_symbol_size object_size =>
      { m_max_symbols := max_symbols, m_max_symbol_size := max_symbol_size,
        m_object_size := object_size }
    byte_offset := rfc5052_partitioning_scheme.byte_offset
    total_block_size := rfc5052_partitioning_scheme.total_block_size
    symbols := rfc5052_partitioning_scheme.symbols
    symbol_size := rfc5052_partitioning_scheme.symbol_size }

/-- Modelled from the spec: `sak::mutable_storage`, a `(pointer, length)`
descriptor over caller memory (the class lives in the external library sak). -/
structure mutable_storage where
  m_data : Nat
  m_size : Nat

/-- Modelled from the spec: `storage + offset`, "a sub-view starting at
`offset` with reduced length". -/
def mutable_storage.add (storage : mutable_storage) (offset : Nat) : mutable_storage :=
  { m_data := storage.m_data + offset, m_size := storage.m_size - offset }

/-- The template parameter `DecoderType` of `storage_decoder`, as far as the
class uses it: `build` is `DecoderType::factory::build(symbols, symbol_size)`
on a factory, `set_symbols` is `decoder->set_symbols(storage)`. -/
structure decoder_type (δ : Type) where
  build : factory → Nat → Nat → δ
  set_symbols : δ → mutable_storage → δ

/-- Members of `storage_decoder<DecoderType, BlockPartitioning>`: the factory
and `m_partitioning` of the base class `object_decoder`, and `m_data`. -/
structure storage_decoder (π : Type) where
  m_factory : factory
  m_partitioning : π
  m_data : mutable_storage

namespace storage_decoder

variable {π δ : Type}

/-- The function `factory::total_block_size(object_size)`, which returns a
`uint32_t`. -/
def total_block_size (P : block_partitioning π) (f : factory) (object_size : Nat) : Nat :=
  let p := P.construct f.max_symbols f.max_symbol_size object_size
  u32 (P.total_block_size p)

/-- Modelled from the spec: the constructor of the base class
`object_decoder(factory, object_size)`, which is not among the sources: it
keeps the factory and derives the partitioning from the factory's bounds and
`object_size`. -/
def object_decoder_construct (P : block_partitioning π) (f : factory) (object_size : Nat) :
    factory × π :=
  (f, P.construct f.max_symbols f.max_symbol_size object_size)

/-- The constructor `storage_decoder(factory, data)`. -/
def construct (P : block_partitioning π) (f : factory) (data : mutable_storage) :
    storage_decoder π :=
  let base := object_decoder_construct P f data.m_size
  { m_factory := base.1, m_partitioning := base.2, m_data := data }

/-- Modelled from the spec: `object_decoder::build(decoder_id)`, which is not
among the sources: it "builds (via the base Factory) a decoder sized for that
block". -/
def object_decoder_build (P : block_partitioning π) (D : decoder_type δ)
    (d : storage_decoder π) (decoder_id : Nat) : δ :=
  D.build d.m_factory (P.symbols d.m_partitioning decoder_id)
    (P.symbol_size d.m_partitioning decoder_id)

/-- The function `build(decoder_id)`. -/
def build (P : block_partitioning π) (D : decoder_type δ) (d : storage_decoder π)
    (decoder_id : Nat) : δ :=
  let decoder := object_decoder_build P D d decoder_id
  let offset := P.byte_offset d.m_partitioning decoder_id
  let data := d.m_data.add offset
  D.set_symbols decoder data

end storage_decoder

/-- A decoder that records the shape it was built for and the storage it was
bound to by `set_symbols`. -/
structure recording_decoder where
  symbols : Nat
  symbol_size : Nat
  storage : Option mutable_storage

/-- The decoder type of `recording_decoder`. -/
def recording : decoder_type recording_decoder :=
  { build := fun _ symbols symbol_size =>
      { symbols := symbols, symbol_size := symbol_size, storage := none }
    set_symbols := fun d storage => { d with storage := some storage } }

/-! ## Instances used to evaluate the definitions -/

/-- A small random source: the state is a counter, a draw returns its low
byte and steps it by `37`. -/
def counter_source : random_source Nat :=
  { seed := fun v => v, draw := fun g => (g % 256, g + 37) }

/-- Wrapped layers that accept every `initialize` and keep a unit state. -/
def unit_super : super_coder Unit :=
  { init := fun _ _ _ => some () }

/-- A `random_uniform_symbol_id` before `initialize` and `seed`. -/
def fresh_uniform : random_uniform_symbol_id Unit Nat :=
  { super := (), m_random_generator := 0, m_id_size := 0 }

/-- A `recoding_symbol_id` before `initialize` and `seed`, holding no
coefficients. -/
def fresh_recoding : recoding_symbol_id Unit Nat :=
  { super := (), m_random_generator := 0, m_id_size := 0, m_coefficients := [] }

/-- Memory holding `0xAA` in every byte. -/
def mem_aa : Mem := fun _ => 170

/-- Modelled from the spec: `sak::is_aligned` for the 16-byte alignment the
spec names as typical. -/
def is_aligned_16 (p : Nat) : Bool := p % 16 == 0

/-- A wrapped encoder with the given symbol size that writes the bytes `D` at
`symbol_data`, then the bytes `I` at `symbol_id`, and reports `I.length`
bytes used. -/
def list_encoder (symbol_size : Nat) (D I : List Nat) : super_encoder Unit :=
  { init := fun _ _ _ => some ()
    symbol_size := fun _ => symbol_size
    symbol_id_size := fun _ => I.length
    header_size := fun _ => I.length
    encode := fun s mem symbol_data symbol_id =>
      { coder := s
        mem := store_bytes (store_bytes mem symbol_data D) symbol_id I
        ret := I.length }
    encode_symbol_size := fun _ _ _ _ => rfl }

/-- A wrapped encoder for symbols of 4 bytes and ids of 3 bytes. -/
def small_encoder : super_encoder Unit := list_encoder 4 [9, 9, 9, 9] [1, 2, 3]

/-- An `align_symbol_id_encoder` before `initialize`. -/
def fresh_guard : align_symbol_id_encoder Unit :=
  { super := (), m_temp_id := { data := 0, size := 0 } }

/-- An `align_symbol_id_encoder` over `small_encoder` after `initialize`, with
its scratch vector at address 4096. -/
def ready_guard : align_symbol_id_encoder Unit :=
  { super := (), m_temp_id := { data := 4096, size := 3 } }

/-- A wrapped encoder for symbols of `2 ^ 32 - 1` bytes and ids of 4 bytes. -/
def wide_encoder : super_encoder Unit :=
  list_encoder 4294967295 (List.replicate 4294967295 9) [1, 2, 3, 4]

/-- A wrapped encoder for symbols of 100 bytes and ids of 4 bytes. -/
def hundred_encoder : super_encoder Unit :=
  list_encoder 100 (List.replicate 100 9) [1, 2, 3, 4]

/-! ## Lemmas on memory and loops -/

theorem store_same (mem : Mem) (a v : Nat) : store mem a v a = v := by
  simp [store]

theorem store_other (mem : Mem) (a v b : Nat) (h : b ≠ a) :
    store mem a v b = mem b := by
  simp [store, h]

theorem read_bytes_length (mem : Mem) (p n : Nat) :
    (read_bytes mem p n).length = n := by
  simp [read_bytes]

theorem read_bytes_congr (m1 m2 : Mem) (p q n : Nat)
    (h : ∀ i, i < n → m1 (p + i) = m2 (q + i)) :
    read_bytes m1 p n = read_bytes m2 q n := by
  unfold read_bytes
  apply List.map_congr_left
  intro i hi
  exact h i (List.mem_range.mp hi)

/-- The loop of `write_id`: after `n` rounds the generator has advanced by
`n` draws and byte `i < n` of the buffer holds the `i`-th draw. -/
theorem write_loop_spec {γ : Type} (R : random_source γ) (symbol_id : Nat)
    (g : γ) (mem : Mem) (n : Nat) :
    for_loop n
      (fun i (st : γ × Mem) =>
        let d := R.draw st.1
        (d.2, store st.2 (symbol_id + i) d.1))
      (g, mem)
    = (advance R g n,
       fun a => if symbol_id ≤ a ∧ a < symbol_id + n
                then nth_draw R g (a - symbol_id) else mem a) := by
  induction n with
  | zero =>
    refine Prod.ext rfl ?_
    funext a
    have h : ¬ (symbol_id ≤ a ∧ a < symbol_id + 0) := by omega
    simp only [for_loop, advance, h, if_false]
  | succ k ih =>
    simp only [for_loop, ih, advance]
    refine Prod.ext rfl ?_
    funext a
    simp only [store]
    by_cases h1 : a = symbol_id + k
    · subst h1
      simp [nth_draw]
    · simp only [h1, if_false]
      by_cases h2 : symbol_id ≤ a ∧ a < symbol_id + k
      · have h3 : symbol_id ≤ a ∧ a < symbol_id + (k + 1) := ⟨h2.1, by omega⟩
        simp [h2, h3]
      · have h3 : ¬ (symbol_id ≤ a ∧ a < symbol_id + (k + 1)) := by
          intro h
          exact h2 ⟨h.1, by omega⟩
        simp [h2, h3]

/-! ## Lemmas on the generator layers -/

/-- Closed form of `random_uniform_symbol_id::write_id` on non-null
arguments. -/
theorem random_uniform_write_id_eq {σ γ : Type} (R : random_source γ)
    (c : random_uniform_symbol_id σ γ) (mem : Mem) (symbol_id out : Nat)
    (h1 : symbol_id ≠ 0) (h2 : out ≠ 0) :
    random_uniform_symbol_id.write_id R c mem symbol_id out
      = some { coder := { c with
                 m_random_generator := advance R c.m_random_generator c.m_id_size }
               mem := fun a => if symbol_id ≤ a ∧ a < symbol_id + c.m_id_size
                 then nth_draw R c.m_random_generator (a - symbol_id) else mem a
               symbol_coefficients := symbol_id
               ret := c.m_id_size } := by
  simp only [random_uniform_symbol_id.write_id, h1, h2, if_false, write_loop_spec]

/-- Closed form of `recoding_symbol_id::write_id` on non-null arguments. -/
theorem recoding_write_id_eq {σ γ : Type} (R : random_source γ)
    (c : recoding_symbol_id σ γ) (mem : Mem) (symbol_id out : Nat)
    (h1 : symbol_id ≠ 0) (h2 : out ≠ 0) :
    recoding_symbol_id.write_id R c mem symbol_id out
      = some { coder := { c with
                 m_random_generator := advance R c.m_random_generator c.m_id_size }
               mem := fun a => if symbol_id ≤ a ∧ a < symbol_id + c.m_id_size
                 then nth_draw R c.m_random_generator (a - symbol_id) else mem a
               symbol_coefficients := symbol_id
               ret := c.m_id_size } := by
  simp only [recoding_symbol_id.write_id, h1, h2, if_false, write_loop_spec]

/-- Reading back a buffer that holds the first `n` draws. -/
theorem read_bytes_draws {γ : Type} (R : random_source γ) (g : γ) (mem : Mem)
    (symbol_id n : Nat) :
    read_bytes
      (fun a => if symbol_id ≤ a ∧ a < symbol_id + n
                then nth_draw R g (a - symbol_id) else mem a) symbol_id n
      = draws R g n := by
  unfold read_bytes draws
  apply List.map_congr_left
  intro i hi
  have hi2 : i < n := List.mem_range.mp hi
  have h : symbol_id ≤ symbol_id + i ∧ symbol_id + i < symbol_id + n :=
    ⟨by omega, by omega⟩
  simp [h]

/-- A successful `random_uniform_symbol_id::initialize` stores
`bytes_needed(symbols)`, which is positive, and keeps the generator. -/
theorem random_uniform_init_some {σ γ : Type} (S : super_coder σ) (F : field_type)
    (c c2 : random_uniform_symbol_id σ γ) (symbols symbol_size : Nat)
    (h : random_uniform_symbol_id.init S F c symbols symbol_size = some c2) :
    c2.m_id_size = F.bytes_needed symbols ∧ 0 < F.bytes_needed symbols ∧
      c2.m_random_generator = c.m_random_generator := by
  unfold random_uniform_symbol_id.init at h
  cases hs : S.init c.super symbols symbol_size with
  | none => simp [hs] at h
  | some s =>
    simp only [hs] at h
    by_cases hp : F.bytes_needed symbols > 0
    · simp only [hp, if_true, Option.some.injEq] at h
      subst h
      exact ⟨rfl, hp, rfl⟩
    · simp [hp] at h

/-- A successful `recoding_symbol_id::initialize` stores
`bytes_needed(symbols)`, which is positive, and keeps the generator and the
coefficient buffer. -/
theorem recoding_init_some {σ γ : Type} (S : super_coder σ) (F : field_type)
    (c c2 : recoding_symbol_id σ γ) (symbols symbol_size : Nat)
    (h : recoding_symbol_id.init S F c symbols symbol_size = some c2) :
    c2.m_id_size = F.bytes_needed symbols ∧ 0 < F.bytes_needed symbols ∧
      c2.m_random_generator = c.m_random_generator := by
  unfold recoding_symbol_id.init at h
  cases hs : S.init c.super symbols symbol_size with
  | none => simp [hs] at h
  | some s =>
    simp only [hs] at h
    by_cases hp : F.bytes_needed symbols > 0
    · simp only [hp, if_true, Option.some.injEq] at h
      subst h
      exact ⟨rfl, hp, rfl⟩
    · simp [hp] at h

/-- The spec's `bytes_needed` is zero exactly for zero symbols, when a
coefficient takes at least one bit and the byte count fits a `uint32_t`. -/
theorem bytes_needed_eq_zero_iff (bits symbols : Nat) (hbits : 1 ≤ bits)
    (hfit : (symbols * bits + 7) / 8 < 2 ^ 32) :
    bytes_needed bits symbols = 0 ↔ symbols = 0 := by
  unfold bytes_needed u32
  rw [Nat.mod_eq_of_lt hfit]
  constructor
  · intro h
    have h1 : symbols * bits + 7 < 8 := by
      by_contra hc
      have : 1 ≤ (symbols * bits + 7) / 8 := (Nat.le_div_iff_mul_le (by norm_num)).mpr (by omega)
      omega
    have h2 : symbols * bits = 0 := by omega
    rcases Nat.mul_eq_zero.mp h2 with h3 | h3
    · exact h3
    · omega
  · intro h
    subst h
    simp

/-- The spec's `bytes_needed` grows with the symbol count, as long as the
byte counts fit a `uint32_t`. -/
theorem bytes_needed_mono (bits a b : Nat) (h : a ≤ b)
    (hfit : (b * bits + 7) / 8 < 2 ^ 32) :
    bytes_needed bits a ≤ bytes_needed bits b := by
  have hab : (a * bits + 7) / 8 ≤ (b * bits + 7) / 8 := by
    apply Nat.div_le_div_right
    have : a * bits ≤ b * bits := Nat.mul_le_mul_right bits h
    omega
  unfold bytes_needed u32
  rw [Nat.mod_eq_of_lt hfit, Nat.mod_eq_of_lt (Nat.lt_of_le_of_lt hab hfit)]
  exact hab

/-- The spec's `bytes_needed` is the byte count reduced modulo `2 ^ 32`. -/
theorem packed_field_bytes_needed (bits symbols : Nat) :
    (packed_field bits).bytes_needed symbols = ((symbols * bits + 7) / 8) % 2 ^ 32 :=
  rfl

/-- The vectors of successive `random_uniform_symbol_id::write_id` calls are
the successive runs of draws. -/
theorem random_uniform_write_ids_eq {σ γ : Type} (R : random_source γ)
    (bufs : List (Nat × Nat)) (c : random_uniform_symbol_id σ γ) (mem : Mem)
    (hb : ∀ b ∈ bufs, b.1 ≠ 0 ∧ b.2 ≠ 0) :
    random_uniform_symbol_id.write_ids R c mem bufs
      = some (successive_draws R c.m_id_size c.m_random_generator bufs.length) := by
  induction bufs generalizing c mem with
  | nil => rfl
  | cons b rest ih =>
    have hb0 := hb b (List.mem_cons_self b rest)
    have hrest : ∀ x ∈ rest, x.1 ≠ 0 ∧ x.2 ≠ 0 :=
      fun x hx => hb x (List.mem_cons_of_mem b hx)
    simp only [random_uniform_symbol_id.write_ids,
      random_uniform_write_id_eq R c mem b.1 b.2 hb0.1 hb0.2, ih _ _ hrest,
      read_bytes_draws, List.length_cons, successive_draws]

/-- The vectors of successive `recoding_symbol_id::write_id` calls are the
successive runs of draws. -/
theorem recoding_write_ids_eq {σ γ : Type} (R : random_source γ)
    (bufs : List (Nat × Nat)) (c : recoding_symbol_id σ γ) (mem : Mem)
    (hb : ∀ b ∈ bufs, b.1 ≠ 0 ∧ b.2 ≠ 0) :
    recoding_symbol_id.write_ids R c mem bufs
      = some (successive_draws R c.m_id_size c.m_random_generator bufs.length) := by
  induction bufs generalizing c mem with
  | nil => rfl
  | cons b rest ih =>
    have hb0 := hb b (List.mem_cons_self b rest)
    have hrest : ∀ x ∈ rest, x.1 ≠ 0 ∧ x.2 ≠ 0 :=
      fun x hx => hb x (List.mem_cons_of_mem b hx)
    simp only [recoding_symbol_id.write_ids,
      recoding_write_id_eq R c mem b.1 b.2 hb0.1 hb0.2, ih _ _ hrest,
      read_bytes_draws, List.length_cons, successive_draws]

theorem successive_draws_length {γ : Type} (R : random_source γ) (n k : Nat) (g : γ) :
    (successive_draws R n g k).length = k := by
  induction k generalizing g with
  | zero => rfl
  | succ k ih => simp [successive_draws, ih]

/-! ## The generator layers: claims -/

/-- C4: two independent generators of the same kind (`random_uniform_symbol_id`
or `recoding_symbol_id`) that were initialized with the same `symbols` and
seeded with the same seed leave byte-for-byte identical coefficient vectors on
each of their `k` successive `write_id` calls, whatever their earlier states,
symbol sizes, memories and buffer addresses. -/
theorem same_seed_same_coefficient_vectors {σ γ : Type} (R : random_source γ)
    (S : super_coder σ) (F : field_type) (symbols ss1 ss2 v : Nat)
    (c1 c2 c1i c2i : random_uniform_symbol_id σ γ)
    (d1 d2 d1i d2i : recoding_symbol_id σ γ)
    (mem1 mem2 : Mem) (bufs1 bufs2 : List (Nat × Nat))
    (hc1 : random_uniform_symbol_id.init S F c1 symbols ss1 = some c1i)
    (hc2 : random_uniform_symbol_id.init S F c2 symbols ss2 = some c2i)
    (hd1 : recoding_symbol_id.init S F d1 symbols ss1 = some d1i)
    (hd2 : recoding_symbol_id.init S F d2 symbols ss2 = some d2i)
    (hlen : bufs1.length = bufs2.length)
    (hb1 : ∀ b ∈ bufs1, b.1 ≠ 0 ∧ b.2 ≠ 0)
    (hb2 : ∀ b ∈ bufs2, b.1 ≠ 0 ∧ b.2 ≠ 0) :
    (∃ vs, vs.length = bufs1.length ∧
      random_uniform_symbol_id.write_ids R
        (random_uniform_symbol_id.seed R c1i v) mem1 bufs1 = some vs ∧
      random_uniform_symbol_id.write_ids R
        (random_uniform_symbol_id.seed R c2i v) mem2 bufs2 = some vs) ∧
    (∃ vs, vs.length = bufs1.length ∧
      recoding_symbol_id.write_ids R
        (recoding_symbol_id.seed R d1i v) mem1 bufs1 = some vs ∧
      recoding_symbol_id.write_ids R
        (recoding_symbol_id.seed R d2i v) mem2 bufs2 = some vs) := by
  have e1 := (random_uniform_init_some S F c1 c1i symbols ss1 hc1).1
  have e2 := (random_uniform_init_some S F c2 c2i symbols ss2 hc2).1
  have e3 := (recoding_init_some S F d1 d1i symbols ss1 hd1).1
  have e4 := (recoding_init_some S F d2 d2i symbols ss2 hd2).1
  constructor
  · refine ⟨successive_draws R (F.bytes_needed symbols) (R.seed v) bufs1.length,
      successive_draws_length R _ _ _, ?_, ?_⟩
    · rw [random_uniform_write_ids_eq R bufs1 _ mem1 hb1]
      simp only [random_uniform_symbol_id.seed, e1]
    · rw [random_uniform_write_ids_eq R bufs2 _ mem2 hb2]
      simp only [random_uniform_symbol_id.seed, e2, hlen]
  · refine ⟨successive_draws R (F.bytes_needed symbols) (R.seed v) bufs1.length,
      successive_draws_length R _ _ _, ?_, ?_⟩
    · rw [recoding_write_ids_eq R bufs1 _ mem1 hb1]
      simp only [recoding_symbol_id.seed, e3]
    · rw [recoding_write_ids_eq R bufs2 _ mem2 hb2]
      simp only [recoding_symbol_id.seed, e4, hlen]

/-- Witness for C4: two generators with different histories, symbol sizes,
memories and buffers, both initialized for 3 symbols over an 8-bit field and
seeded with 250, each produce the vectors `[250, 31, 68]` and `[105, 142, 179]`
on two calls. -/
theorem same_seed_same_coefficient_vectors_witness :
    (∃ vs, vs.length = 2 ∧
      random_uniform_symbol_id.write_ids counter_source
        (random_uniform_symbol_id.seed counter_source
          { super := (), m_random_generator := 0, m_id_size := 3 } 250)
        mem_aa [(1000, 8), (1000, 8)] = some vs ∧
      random_uniform_symbol_id.write_ids counter_source
        (random_uniform_symbol_id.seed counter_source
          { super := (), m_random_generator := 77, m_id_size := 3 } 250)
        (fun _ => 0) [(4001, 16), (5003, 24)] = some vs) ∧
    (∃ vs, vs.length = 2 ∧
      recoding_symbol_id.write_ids counter_source
        (recoding_symbol_id.seed counter_source
          { super := (), m_random_generator := 0, m_id_size := 3,
            m_coefficients := [] } 250)
        mem_aa [(1000, 8), (1000, 8)] = some vs ∧
      recoding_symbol_id.write_ids counter_source
        (recoding_symbol_id.seed counter_source
          { super := (), m_random_generator := 5, m_id_size := 3,
            m_coefficients := [1, 1] } 250)
        (fun _ => 0) [(4001, 16), (5003, 24)] = some vs) :=
  same_seed_same_coefficient_vectors counter_source unit_super (packed_field 8)
    3 100 1400 250
    fresh_uniform { super := (), m_random_generator := 77, m_id_size := 9 } _ _
    fresh_recoding
    { super := (), m_random_generator := 5, m_id_size := 9, m_coefficients := [1, 1] } _ _
    mem_aa (fun _ => 0) [(1000, 8), (1000, 8)] [(4001, 16), (5003, 24)]
    rfl rfl rfl rfl rfl (by decide) (by decide)

/-- C5 (the code departs from the claim): `recoding_symbol_id::write_id`
publishes the raw draws.  At a coder for two coefficients whose next draws are
3 and 40 and that holds the vector `[1, 1]`, it leaves `[3, 40]` in
`symbol_id`, sets `symbol_coefficients` to `symbol_id` and keeps
`m_coefficients`; `[3, 40]` is no weighted sum of `[1, 1]` for any field
arithmetic and any scalars.  In general the buffer of held coefficients plays
no part: whatever `m_coefficients` holds, the memory, the pointer stored
through `symbol_coefficients` and the returned size are the same. -/
theorem recoding_write_id_publishes_raw_draws :
    (recoding_symbol_id.write_id counter_source
        { super := (), m_random_generator := 3, m_id_size := 2, m_coefficients := [1, 1] }
        mem_aa 1000 2000).map
      (fun r => (read_bytes r.mem 1000 r.ret, r.symbol_coefficients, r.coder.m_coefficients))
      = some ([3, 40], 1000, [1, 1]) ∧
    (∀ (add mul : Nat → Nat → Nat) (scalars : List Nat),
      weighted_sum add mul 2 scalars [[1, 1]] ≠ [3, 40]) ∧
    (∀ (R : random_source Nat) (c : recoding_symbol_id Unit Nat) (held : List Nat)
        (mem : Mem) (symbol_id out : Nat),
      (recoding_symbol_id.write_id R c mem symbol_id out).map
          (fun r => (r.mem, r.symbol_coefficients, r.ret))
        = (recoding_symbol_id.write_id R { c with m_coefficients := held }
            mem symbol_id out).map
          (fun r => (r.mem, r.symbol_coefficients, r.ret))) := by
  refine ⟨rfl, ?_, ?_⟩
  · intro add mul scalars h
    cases scalars with
    | nil => simp [weighted_sum] at h
    | cons x xs =>
      simp only [weighted_sum, List.zip_cons_cons, List.zip_nil_right, List.foldl_cons,
        List.foldl_nil, List.map_cons, List.map_nil, List.replicate, List.zipWith_cons_cons,
        List.zipWith_nil_right, List.cons.injEq, and_true] at h
      omega
  · intro R c held mem symbol_id out
    by_cases h1 : symbol_id = 0
    · simp [recoding_symbol_id.write_id, h1]
    · by_cases h2 : out = 0
      · simp [recoding_symbol_id.write_id, h2]
      · rw [recoding_write_id_eq R c mem symbol_id out h1 h2,
          recoding_write_id_eq R _ mem symbol_id out h1 h2]
        rfl

/-- C6: after a successful `initialize(symbols, symbol_size)` of either
generator, `id_size()` equals `bytes_needed(field, symbols)`; initializing with
another symbol size gives the same `id_size()`, and a later `initialize` with
other `symbols` gives `bytes_needed` of the new `symbols`. -/
theorem id_size_after_initialize {σ γ : Type} (S : super_coder σ) (F : field_type)
    (symbols symbol_size : Nat)
    (c c1 : random_uniform_symbol_id σ γ) (d d1 : recoding_symbol_id σ γ)
    (hc : random_uniform_symbol_id.init S F c symbols symbol_size = some c1)
    (hd : recoding_symbol_id.init S F d symbols symbol_size = some d1) :
    c1.id_size = F.bytes_needed symbols ∧ d1.id_size = F.bytes_needed symbols ∧
    (∀ symbol_size2 c2,
      random_uniform_symbol_id.init S F c symbols symbol_size2 = some c2 →
        c2.id_size = c1.id_size) ∧
    (∀ symbol_size2 d2,
      recoding_symbol_id.init S F d symbols symbol_size2 = some d2 →
        d2.id_size = d1.id_size) ∧
    (∀ symbols2 symbol_size2 c3,
      random_uniform_symbol_id.init S F c1 symbols2 symbol_size2 = some c3 →
        c3.id_size = F.bytes_needed symbols2) ∧
    (∀ symbols2 symbol_size2 d3,
      recoding_symbol_id.init S F d1 symbols2 symbol_size2 = some d3 →
        d3.id_size = F.bytes_needed symbols2) := by
  have e1 := (random_uniform_init_some S F c c1 symbols symbol_size hc).1
  have e2 := (recoding_init_some S F d d1 symbols symbol_size hd).1
  refine ⟨e1, e2, ?_, ?_, ?_, ?_⟩
  · intro symbol_size2 c2 h
    have e := (random_uniform_init_some S F c c2 symbols symbol_size2 h).1
    simp only [random_uniform_symbol_id.id_size, e, e1]
  · intro symbol_size2 d2 h
    have e := (recoding_init_some S F d d2 symbols symbol_size2 h).1
    simp only [recoding_symbol_id.id_size, e, e2]
  · intro symbols2 symbol_size2 c3 h
    exact (random_uniform_init_some S F c1 c3 symbols2 symbol_size2 h).1
  · intro symbols2 symbol_size2 d3 h
    exact (recoding_init_some S F d1 d3 symbols2 symbol_size2 h).1

/-- Witness for C6: 10 symbols of 100 bytes over an 8-bit field give an id
size of 10 bytes. -/
theorem id_size_after_initialize_witness :
    random_uniform_symbol_id.init unit_super (packed_field 8) fresh_uniform 10 100
      = some { super := (), m_random_generator := 0, m_id_size := 10 } ∧
    recoding_symbol_id.init unit_super (packed_field 8) fresh_recoding 10 100
      = some { super := (), m_random_generator := 0, m_id_size := 10, m_coefficients := [] } ∧
    random_uniform_symbol_id.id_size
        ({ super := (), m_random_generator := 0, m_id_size := 10 } :
          random_uniform_symbol_id Unit Nat) = 10 ∧
    recoding_symbol_id.id_size
        ({ super := (), m_random_generator := 0, m_id_size := 10, m_coefficients := [] } :
          recoding_symbol_id Unit Nat) = 10 :=
  have h := id_size_after_initialize unit_super (packed_field 8) 10 100
    fresh_uniform _ fresh_recoding _ rfl rfl
  ⟨rfl, rfl, h.1, h.2.1⟩

/-- C7: on non-null arguments `write_id` of either generator returns exactly
`id_size()`, leaves in byte `i < id_size()` of `symbol_id` the `i`-th value
drawn in this call, and changes no other byte: not the bytes of the buffer at
index `id_size()` and beyond, nor any byte below it. -/
theorem write_id_overwrites_id_size_bytes {σ γ : Type} (R : random_source γ)
    (c : random_uniform_symbol_id σ γ) (d : recoding_symbol_id σ γ)
    (mem : Mem) (symbol_id out : Nat) (h1 : symbol_id ≠ 0) (h2 : out ≠ 0) :
    (∃ r, random_uniform_symbol_id.write_id R c mem symbol_id out = some r ∧
      r.ret = c.id_size ∧
      (∀ i, i < c.id_size → r.mem (symbol_id + i) = nth_draw R c.m_random_generator i) ∧
      (∀ i, c.id_size ≤ i → r.mem (symbol_id + i) = mem (symbol_id + i)) ∧
      (∀ a, a < symbol_id → r.mem a = mem a)) ∧
    (∃ r, recoding_symbol_id.write_id R d mem symbol_id out = some r ∧
      r.ret = d.id_size ∧
      (∀ i, i < d.id_size → r.mem (symbol_id + i) = nth_draw R d.m_random_generator i) ∧
      (∀ i, d.id_size ≤ i → r.mem (symbol_id + i) = mem (symbol_id + i)) ∧
      (∀ a, a < symbol_id → r.mem a = mem a)) := by
  constructor
  · refine ⟨_, random_uniform_write_id_eq R c mem symbol_id out h1 h2, rfl, ?_, ?_, ?_⟩
    · intro i hi
      have h : symbol_id ≤ symbol_id + i ∧ symbol_id + i < symbol_id + c.m_id_size :=
        ⟨by omega, by simpa [random_uniform_symbol_id.id_size] using hi⟩
      simp [h]
    · intro i hi
      have h : ¬ (symbol_id ≤ symbol_id + i ∧ symbol_id + i < symbol_id + c.m_id_size) := by
        simp only [random_uniform_symbol_id.id_size] at hi
        omega
      simp only [h, if_false]
    · intro a ha
      have h : ¬ (symbol_id ≤ a ∧ a < symbol_id + c.m_id_size) := by omega
      simp only [h, if_false]
  · refine ⟨_, recoding_write_id_eq R d mem symbol_id out h1 h2, rfl, ?_, ?_, ?_⟩
    · intro i hi
      have h : symbol_id ≤ symbol_id + i ∧ symbol_id + i < symbol_id + d.m_id_size :=
        ⟨by omega, by simpa [recoding_symbol_id.id_size] using hi⟩
      simp [h]
    · intro i hi
      have h : ¬ (symbol_id ≤ symbol_id + i ∧ symbol_id + i < symbol_id + d.m_id_size) := by
        simp only [recoding_symbol_id.id_size] at hi
        omega
      simp only [h, if_false]
    · intro a ha
      have h : ¬ (symbol_id ≤ a ∧ a < symbol_id + d.m_id_size) := by omega
      simp only [h, if_false]

/-- Witness for C7: a call for 3 bytes at address 1000 in memory filled with
`0xAA`, with the generator at 250. -/
theorem write_id_overwrites_id_size_bytes_witness :
    (∃ r, random_uniform_symbol_id.write_id counter_source
        ({ super := (), m_random_generator := 250, m_id_size := 3 } :
          random_uniform_symbol_id Unit Nat) mem_aa 1000 8 = some r ∧
      r.ret = 3 ∧ read_bytes r.mem 998 7 = [170, 170, 250, 31, 68, 170, 170]) ∧
    (∃ r, recoding_symbol_id.write_id counter_source
        ({ super := (), m_random_generator := 250, m_id_size := 3, m_coefficients := [] } :
          recoding_symbol_id Unit Nat) mem_aa 1000 8 = some r ∧
      r.ret = 3 ∧ read_bytes r.mem 998 7 = [170, 170, 250, 31, 68, 170, 170]) := by
  have h := write_id_overwrites_id_size_bytes counter_source
    ({ super := (), m_random_generator := 250, m_id_size := 3 } :
      random_uniform_symbol_id Unit Nat)
    ({ super := (), m_random_generator := 250, m_id_size := 3, m_coefficients := [] } :
      recoding_symbol_id Unit Nat) mem_aa 1000 8 (by decide) (by decide)
  obtain ⟨⟨r, hr, hret, _⟩, ⟨q, hq, hqret, _⟩⟩ := h
  refine ⟨⟨r, hr, hret, ?_⟩, ⟨q, hq, hqret, ?_⟩⟩
  · have e : r = _ := Option.some.inj (hr.symm.trans rfl)
    rw [e]
    rfl
  · have e : q = _ := Option.some.inj (hq.symm.trans rfl)
    rw [e]
    rfl

/-- C8: on non-null arguments `random_uniform_symbol_id::read_id` stores the
pointer `symbol_id` itself through `symbol_coefficients` and changes nothing
else: memory (so the bytes of `symbol_id`), the coder, its `id_size()` and its
generator state are as before, and every later `write_id` behaves as it would
have without the `read_id`. -/
theorem read_id_exposes_buffer_only {σ γ : Type} (R : random_source γ)
    (c : random_uniform_symbol_id σ γ) (mem : Mem) (symbol_id out : Nat)
    (h1 : symbol_id ≠ 0) (h2 : out ≠ 0) :
    ∃ r, random_uniform_symbol_id.read_id c mem symbol_id out = some r ∧
      r.symbol_coefficients = symbol_id ∧
      r.mem = mem ∧
      r.coder = c ∧
      r.coder.id_size = c.id_size ∧
      r.coder.m_random_generator = c.m_random_generator ∧
      ∀ p q, random_uniform_symbol_id.write_id R r.coder r.mem p q
        = random_uniform_symbol_id.write_id R c mem p q := by
  refine ⟨{ coder := c, mem := mem, symbol_coefficients := symbol_id, ret := 0 },
    ?_, rfl, rfl, rfl, rfl, rfl, fun _ _ => rfl⟩
  simp only [random_uniform_symbol_id.read_id, h1, h2, if_false]

/-- Witness for C8: reading the id at address 1000. -/
theorem read_id_exposes_buffer_only_witness :
    ∃ r, random_uniform_symbol_id.read_id
        ({ super := (), m_random_generator := 250, m_id_size := 3 } :
          random_uniform_symbol_id Unit Nat) mem_aa 1000 8 = some r ∧
      r.symbol_coefficients = 1000 ∧
      r.mem = mem_aa ∧
      r.coder = { super := (), m_random_generator := 250, m_id_size := 3 } ∧
      r.coder.id_size = 3 ∧
      r.coder.m_random_generator = 250 ∧
      ∀ p q, random_uniform_symbol_id.write_id counter_source r.coder r.mem p q
        = random_uniform_symbol_id.write_id counter_source
            { super := (), m_random_generator := 250, m_id_size := 3 } mem_aa p q :=
  read_id_exposes_buffer_only counter_source
    { super := (), m_random_generator := 250, m_id_size := 3 } mem_aa 1000 8
    (by decide) (by decide)

/-- C9 as stated fails: over a field of 16-bit coefficients the byte count
for `symbols = 2147483648` is `4294967296`, which is `0` as a `uint32_t`, so
`initialize` of both generators fails although `symbols >= 1`. -/
theorem initialize_fails_on_wrapped_byte_count :
    (1 : Nat) ≤ 2147483648 ∧ (2147483648 : Nat) < 2 ^ 32 ∧
    (2147483648 * 16 + 7) / 8 = 4294967296 ∧
    (packed_field 16).bytes_needed 2147483648 = 0 ∧
    unit_super.init fresh_uniform.super 2147483648 100 = some () ∧
    random_uniform_symbol_id.init unit_super (packed_field 16) fresh_uniform 2147483648 100
      = none ∧
    recoding_symbol_id.init unit_super (packed_field 16) fresh_recoding 2147483648 100
      = none := by
  exact ⟨by decide, by decide, by decide, by decide, rfl, rfl, rfl⟩

/-- C9, amended: once the wrapped layers have accepted `(symbols,
symbol_size)`, `initialize` of either generator fails exactly when
`bytes_needed(field, symbols)` is zero.  With `bytes_needed` the number of
bytes holding `symbols` coefficients of `bits >= 1` bits each, rounded up and
held in a `uint32_t`, that is exactly when the byte count is a multiple of
`2 ^ 32`: it fails for `symbols = 0`, and whenever the byte count is below
`2 ^ 32` it fails only for `symbols = 0` and succeeds for every
`symbols >= 1`. -/
theorem initialize_fails_iff_no_bytes {σ γ : Type} (S : super_coder σ) (F : field_type)
    (symbols symbol_size : Nat)
    (c : random_uniform_symbol_id σ γ) (d : recoding_symbol_id σ γ) (s t : σ)
    (hs : S.init c.super symbols symbol_size = some s)
    (ht : S.init d.super symbols symbol_size = some t) :
    (random_uniform_symbol_id.init S F c symbols symbol_size = none
      ↔ F.bytes_needed symbols = 0) ∧
    (recoding_symbol_id.init S F d symbols symbol_size = none
      ↔ F.bytes_needed symbols = 0) ∧
    (∀ bits, 1 ≤ bits →
      (random_uniform_symbol_id.init S (packed_field bits) c symbols symbol_size = none
        ↔ ((symbols * bits + 7) / 8) % 2 ^ 32 = 0) ∧
      (recoding_symbol_id.init S (packed_field bits) d symbols symbol_size = none
        ↔ ((symbols * bits + 7) / 8) % 2 ^ 32 = 0) ∧
      (symbols = 0 →
        random_uniform_symbol_id.init S (packed_field bits) c symbols symbol_size = none ∧
        recoding_symbol_id.init S (packed_field bits) d symbols symbol_size = none) ∧
      ((symbols * bits + 7) / 8 < 2 ^ 32 →
        (random_uniform_symbol_id.init S (packed_field bits) c symbols symbol_size = none
          ↔ symbols = 0) ∧
        (recoding_symbol_id.init S (packed_field bits) d symbols symbol_size = none
          ↔ symbols = 0) ∧
        (1 ≤ symbols →
          (random_uniform_symbol_id.init S (packed_field bits) c symbols symbol_size).isSome
            = true ∧
          (recoding_symbol_id.init S (packed_field bits) d symbols symbol_size).isSome
            = true))) := by
  have hu : ∀ G : field_type,
      (random_uniform_symbol_id.init S G c symbols symbol_size = none
        ↔ G.bytes_needed symbols = 0) := by
    intro G
    unfold random_uniform_symbol_id.init
    simp only [hs]
    by_cases hp : G.bytes_needed symbols > 0
    · simp only [hp, if_true]
      constructor
      · intro h
        exact absurd h (by simp)
      · intro h
        omega
    · simp only [hp, if_false, true_iff]
      omega
  have hr : ∀ G : field_type,
      (recoding_symbol_id.init S G d symbols symbol_size = none
        ↔ G.bytes_needed symbols = 0) := by
    intro G
    unfold recoding_symbol_id.init
    simp only [ht]
    by_cases hp : G.bytes_needed symbols > 0
    · simp only [hp, if_true]
      constructor
      · intro h
        exact absurd h (by simp)
      · intro h
        omega
    · simp only [hp, if_false, true_iff]
      omega
  refine ⟨hu F, hr F, ?_⟩
  intro bits hbits
  have hm : (packed_field bits).bytes_needed symbols = 0
      ↔ ((symbols * bits + 7) / 8) % 2 ^ 32 = 0 := by
    rw [packed_field_bytes_needed]
  refine ⟨(hu _).trans hm, (hr _).trans hm, ?_, ?_⟩
  · intro h0
    subst h0
    exact ⟨((hu _).trans hm).mpr (by simp), ((hr _).trans hm).mpr (by simp)⟩
  · intro hfit
    have hz : (packed_field bits).bytes_needed symbols = 0 ↔ symbols = 0 :=
      bytes_needed_eq_zero_iff bits symbols hbits hfit
    refine ⟨(hu _).trans hz, (hr _).trans hz, ?_⟩
    intro hpos
    constructor
    · cases h : random_uniform_symbol_id.init S (packed_field bits) c symbols symbol_size with
      | none =>
        have := ((hu _).trans hz).mp h
        omega
      | some x => rfl
    · cases h : recoding_symbol_id.init S (packed_field bits) d symbols symbol_size with
      | none =>
        have := ((hr _).trans hz).mp h
        omega
      | some x => rfl

/-- Witness for C9, amended: zero symbols over an 8-bit field, with wrapped
layers that accept every argument. -/
theorem initialize_fails_iff_no_bytes_witness :
    unit_super.init fresh_uniform.super 0 100 = some () ∧
    unit_super.init fresh_recoding.super 0 100 = some () ∧
    random_uniform_symbol_id.init unit_super (packed_field 8) fresh_uniform 0 100 = none ∧
    recoding_symbol_id.init unit_super (packed_field 8) fresh_recoding 0 100 = none :=
  have h := initialize_fails_iff_no_bytes unit_super (packed_field 8) 0 100
    fresh_uniform fresh_recoding () () rfl rfl
  ⟨rfl, rfl, h.1.mpr rfl, h.2.1.mpr rfl⟩

/-- C10: when `bytes_needed` is monotone in the symbol count (on the counts up
to `max_symbols`, which is all that is used), a coder initialized with
`symbols <= max_symbols` has `id_size()`, which is also what `write_id`
returns, at most `factory::max_id_size()`, and the latter is
`bytes_needed(field, max_symbols)`. -/
theorem id_size_le_max_id_size {σ γ : Type} (R : random_source γ) (S : super_coder σ)
    (F : field_type) (f : factory) (symbols symbol_size : Nat)
    (c c1 : random_uniform_symbol_id σ γ)
    (hmono : ∀ a b, a ≤ b → b ≤ f.max_symbols → F.bytes_needed a ≤ F.bytes_needed b)
    (hle : symbols ≤ f.max_symbols)
    (hinit : random_uniform_symbol_id.init S F c symbols symbol_size = some c1) :
    random_uniform_symbol_id.max_id_size F f = some (F.bytes_needed f.max_symbols) ∧
    c1.id_size ≤ F.bytes_needed f.max_symbols ∧
    ∀ mem symbol_id out r,
      random_uniform_symbol_id.write_id R c1 mem symbol_id out = some r →
        r.ret ≤ F.bytes_needed f.max_symbols := by
  obtain ⟨e1, hpos, _⟩ := random_uniform_init_some S F c c1 symbols symbol_size hinit
  have hm := hmono symbols f.max_symbols hle (Nat.le_refl _)
  have hid : c1.id_size ≤ F.bytes_needed f.max_symbols := by
    simp only [random_uniform_symbol_id.id_size, e1]
    exact hm
  refine ⟨?_, hid, ?_⟩
  · have hp : F.bytes_needed f.max_symbols > 0 := by omega
    simp only [random_uniform_symbol_id.max_id_size, hp, if_true]
  · intro mem symbol_id out r hr
    unfold random_uniform_symbol_id.write_id at hr
    by_cases h1 : symbol_id = 0
    · simp [h1] at hr
    · by_cases h2 : out = 0
      · simp [h2] at hr
      · simp only [h1, h2, if_false, Option.some.injEq] at hr
        rw [← hr]
        exact hid

/-- Witness for C10: a factory for at most 16 symbols and a coder for 10
symbols over an 8-bit field: `max_id_size()` is 16 and `id_size()` is 10. -/
theorem id_size_le_max_id_size_witness :
    (10 : Nat) ≤ 16 ∧
    random_uniform_symbol_id.init unit_super (packed_field 8) fresh_uniform 10 100
      = some { super := (), m_random_generator := 0, m_id_size := 10 } ∧
    random_uniform_symbol_id.max_id_size (packed_field 8)
        { max_symbols := 16, max_symbol_size := 160 } = some 16 ∧
    random_uniform_symbol_id.id_size
        ({ super := (), m_random_generator := 0, m_id_size := 10 } :
          random_uniform_symbol_id Unit Nat) ≤ 16 :=
  have h := id_size_le_max_id_size counter_source unit_super (packed_field 8)
    { max_symbols := 16, max_symbol_size := 160 } 10 100 fresh_uniform _
    (fun a b hab hb => bytes_needed_mono 8 a b hab
      (Nat.lt_of_le_of_lt (Nat.div_le_div_right (Nat.add_le_add_right
        (Nat.mul_le_mul_right 8 hb) 7)) (by decide)))
    (by decide) rfl
  ⟨by decide, rfl, h.1, h.2.1⟩

/-! ## Lemmas on the encoder layers -/

/-- The loop of `std::copy` when the destination does not start inside the
source range: the first `k` destination bytes hold the source bytes. -/
theorem copy_loop_spec (mem : Mem) (src dst n k : Nat)
    (h : dst ≤ src ∨ src + n ≤ dst) (hk : k ≤ n) :
    for_loop k (fun j m => store m (dst + j) (m (src + j))) mem
      = fun a => if dst ≤ a ∧ a < dst + k then mem (src + (a - dst)) else mem a := by
  induction k with
  | zero =>
    funext a
    have h0 : ¬ (dst ≤ a ∧ a < dst + 0) := by omega
    simp only [for_loop, h0, if_false]
  | succ k ih =>
    simp only [for_loop, ih (by omega)]
    funext a
    have hsrc : ¬ (dst ≤ src + k ∧ src + k < dst + k) := by omega
    simp only [store, hsrc, if_false]
    by_cases h1 : a = dst + k
    · subst h1
      have h2 : dst ≤ dst + k ∧ dst + k < dst + (k + 1) := ⟨by omega, by omega⟩
      simp [h2]
    · simp only [h1, if_false]
      by_cases h2 : dst ≤ a ∧ a < dst + k
      · have h3 : dst ≤ a ∧ a < dst + (k + 1) := ⟨h2.1, by omega⟩
        simp only [h2, h3, and_self, if_true]
      · have h3 : ¬ (dst ≤ a ∧ a < dst + (k + 1)) := by
          intro hc
          exact h2 ⟨hc.1, by omega⟩
        simp only [h2, h3, if_false]

/-- After `std::copy(src, src + n, dst)` the `n` bytes at `dst` read as the
`n` bytes that were at `src`. -/
theorem read_bytes_copy (mem : Mem) (src dst n : Nat) (h : dst ≤ src ∨ src + n ≤ dst) :
    read_bytes (copy mem src (src + n) dst) dst n = read_bytes mem src n := by
  unfold copy
  rw [Nat.add_sub_cancel_left, copy_loop_spec mem src dst n n h (le_refl n)]
  apply read_bytes_congr
  intro i hi
  have h1 : dst ≤ dst + i ∧ dst + i < dst + n := ⟨by omega, by omega⟩
  simp [h1]

/-- Reading back a list of bytes just written. -/
theorem read_bytes_store_bytes (mem : Mem) (p : Nat) (L : List Nat) :
    read_bytes (store_bytes mem p L) p L.length = L := by
  apply List.ext_getElem
  · simp [read_bytes]
  · intro i h1 h2
    simp [read_bytes, store_bytes, h2]

/-- Bytes written at `q` do not show in a range that ends at or before `q`. -/
theorem read_bytes_store_bytes_below (mem : Mem) (p n q : Nat) (L : List Nat)
    (h : p + n ≤ q) :
    read_bytes (store_bytes mem q L) p n = read_bytes mem p n := by
  apply read_bytes_congr
  intro i hi
  have h3 : ¬ (q ≤ p + i ∧ p + i < q + L.length) := by omega
  simp only [store_bytes, h3, if_false]

theorem read_bytes_add (mem : Mem) (p m n : Nat) :
    read_bytes mem p (m + n) = read_bytes mem p m ++ read_bytes mem (p + m) n := by
  simp only [read_bytes, List.range_add, List.map_append, List.map_map]
  congr 1
  apply List.map_congr_left
  intro i _
  simp [Nat.add_assoc]

/-- A successful `align_symbol_id_encoder::initialize` leaves an aligned
scratch vector of `symbol_id_size()` bytes. -/
theorem align_init_scratch_ready {σ : Type} (W : super_encoder σ) (is_aligned : Nat → Bool)
    (c c1 : align_symbol_id_encoder σ) (symbols symbol_size storage : Nat)
    (h : align_symbol_id_encoder.init W is_aligned c symbols symbol_size storage = some c1) :
    scratch_ready W is_aligned c1 := by
  unfold align_symbol_id_encoder.init at h
  cases hs : W.init c.super symbols symbol_size with
  | none => simp [hs] at h
  | some s =>
    simp only [hs] at h
    by_cases ha : is_aligned storage = true
    · simp only [ha, if_true, Option.some.injEq] at h
      subst h
      exact ⟨ha, rfl⟩
    · simp [ha] at h

/-- The id output of `list_encoder` is the list `I` wherever the id buffer
lies. -/
theorem list_encoder_address_independent (symbol_size : Nat) (D I : List Nat)
    (is_aligned : Nat → Bool) :
    id_output_address_independent (list_encoder symbol_size D I) is_aligned := by
  intro s mem symbol_data p q _ _
  refine ⟨rfl, ?_⟩
  simp only [list_encoder, read_bytes_store_bytes]

/-! ## The encoder layers: claims -/

/-- C1: alignment never changes the coding result.  For a wrapped encoder
whose id output does not depend on the address of the id buffer and that
reports at most `symbol_id_size()` bytes, for a coder whose scratch vector is
as `initialize` leaves it, and for every caller buffer, aligned or not, that
does not start inside the scratch vector, `align_symbol_id_encoder::encode`
returns the same `bytes_used` and leaves in the first `bytes_used` bytes of
the caller's buffer the same bytes as `SuperCoder::encode` called directly on
an aligned buffer `a`. -/
theorem align_encode_same_as_direct {σ : Type} (W : super_encoder σ)
    (is_aligned : Nat → Bool) (c : align_symbol_id_encoder σ) (mem : Mem)
    (symbol_data symbol_id a : Nat)
    (hindep : id_output_address_independent W is_aligned)
    (hready : scratch_ready W is_aligned c)
    (hused : ∀ p, (W.encode c.super mem symbol_data p).ret ≤ W.symbol_id_size c.super)
    (hdata : symbol_data ≠ 0) (hid : symbol_id ≠ 0)
    (hsep : symbol_id ≤ c.m_temp_id.data ∨ c.m_temp_id.data + c.m_temp_id.size ≤ symbol_id)
    (ha : is_aligned a = true) :
    ∃ r, align_symbol_id_encoder.encode W is_aligned c mem symbol_data symbol_id = some r ∧
      r.ret = (W.encode c.super mem symbol_data a).ret ∧
      read_bytes r.mem symbol_id r.ret
        = read_bytes (W.encode c.super mem symbol_data a).mem a r.ret := by
  by_cases hal : is_aligned symbol_id = false
  · obtain ⟨hret, hbytes⟩ := hindep c.super mem symbol_data c.m_temp_id.data a hready.1 ha
    have hle := hused c.m_temp_id.data
    have hcopy : symbol_id ≤ c.m_temp_id.data ∨
        c.m_temp_id.data + (W.encode c.super mem symbol_data c.m_temp_id.data).ret
          ≤ symbol_id := by
      have := hready.2
      omega
    refine ⟨{ coder := { c with
                super := (W.encode c.super mem symbol_data c.m_temp_id.data).coder }
              mem := copy (W.encode c.super mem symbol_data c.m_temp_id.data).mem
                c.m_temp_id.data
                (c.m_temp_id.data + (W.encode c.super mem symbol_data c.m_temp_id.data).ret)
                symbol_id
              ret := (W.encode c.super mem symbol_data c.m_temp_id.data).ret },
      ?_, hret, ?_⟩
    · simp only [align_symbol_id_encoder.encode, hdata, hid, hal, if_false, if_true]
    · simp only [read_bytes_copy _ _ _ _ hcopy]
      exact hbytes
  · have hal2 : is_aligned symbol_id = true := by
      cases h : is_aligned symbol_id with
      | false => exact absurd h hal
      | true => rfl
    obtain ⟨hret, hbytes⟩ := hindep c.super mem symbol_data symbol_id a hal2 ha
    refine ⟨{ coder := { c with
                super := (W.encode c.super mem symbol_data symbol_id).coder }
              mem := (W.encode c.super mem symbol_data symbol_id).mem
              ret := (W.encode c.super mem symbol_data symbol_id).ret },
      ?_, hret, hbytes⟩
    simp [align_symbol_id_encoder.encode, hdata, hid, hal2]

/-- Witness for C1: a caller buffer at the unaligned address 1001, the scratch
vector at 4096 and a reference buffer at 8192. -/
theorem align_encode_same_as_direct_witness :
    ∃ r, align_symbol_id_encoder.encode small_encoder is_aligned_16 ready_guard mem_aa
        2000 1001 = some r ∧
      r.ret = (small_encoder.encode () mem_aa 2000 8192).ret ∧
      read_bytes r.mem 1001 r.ret
        = read_bytes (small_encoder.encode () mem_aa 2000 8192).mem 8192 r.ret :=
  align_encode_same_as_direct small_encoder is_aligned_16 ready_guard mem_aa 2000 1001 8192
    (list_encoder_address_independent 4 [9, 9, 9, 9] [1, 2, 3] is_aligned_16)
    (align_init_scratch_ready small_encoder is_aligned_16 fresh_guard ready_guard 3 4 4096 rfl)
    (fun _ => Nat.le_refl 3) (by decide) (by decide) (by decide) rfl

/-- C2 as stated fails: for a coder with `symbol_size() = 4294967295` whose
wrapped `encode` reports 4 id bytes, `payload_encoder::encode` returns 3, not
`4294967295 + 4`. -/
theorem payload_encode_return_wraps :
    (payload_encoder.encode wide_encoder () mem_aa 4096).map (fun r => r.ret) = some 3 ∧
    wide_encoder.symbol_size () = 4294967295 ∧
    (wide_encoder.encode () mem_aa 4096 (4096 + wide_encoder.symbol_size ())).ret = 4 ∧
    (payload_encoder.encode wide_encoder () mem_aa 4096).map (fun r => r.ret)
      ≠ some (wide_encoder.symbol_size ()
          + (wide_encoder.encode () mem_aa 4096 (4096 + wide_encoder.symbol_size ())).ret) := by
  refine ⟨rfl, rfl, rfl, ?_⟩
  intro h
  have h2 : (3 : Nat) = 4294967295 + 4 := Option.some.inj h
  omega

/-- C2, amended: for every coder state and non-null payload buffer,
`payload_encoder::encode(payload)` returns the `uint32_t` sum of
`symbol_size()` and the number of bytes the wrapped
`encode(payload, payload + symbol_size())` reports, that is their sum modulo
`2 ^ 32`; this is the sum itself whenever the sum is below `2 ^ 32`, and 104
for `symbol_size() = 100` and 4 id bytes. -/
theorem payload_encode_returns_u32_sum {σ : Type} (W : super_encoder σ) (s : σ)
    (mem : Mem) (payload : Nat) (hp : payload ≠ 0) :
    ∃ r, payload_encoder.encode W s mem payload = some r ∧
      r.ret = (W.symbol_size s
          + (W.encode s mem payload (payload + W.symbol_size s)).ret) % 2 ^ 32 ∧
      (W.symbol_size s + (W.encode s mem payload (payload + W.symbol_size s)).ret < 2 ^ 32 →
        r.ret = W.symbol_size s
          + (W.encode s mem payload (payload + W.symbol_size s)).ret) ∧
      (W.symbol_size s = 100 →
        (W.encode s mem payload (payload + W.symbol_size s)).ret = 4 → r.ret = 104) := by
  have hret : u32 ((W.encode s mem payload (payload + W.symbol_size s)).ret
        + W.symbol_size (W.encode s mem payload (payload + W.symbol_size s)).coder)
      = (W.symbol_size s
          + (W.encode s mem payload (payload + W.symbol_size s)).ret) % 2 ^ 32 := by
    rw [W.encode_symbol_size, Nat.add_comm]
    rfl
  refine ⟨{ coder := (W.encode s mem payload (payload + W.symbol_size s)).coder
            mem := (W.encode s mem payload (payload + W.symbol_size s)).mem
            ret := u32 ((W.encode s mem payload (payload + W.symbol_size s)).ret
              + W.symbol_size (W.encode s mem payload (payload + W.symbol_size s)).coder) },
    ?_, hret, ?_, ?_⟩
  · simp only [payload_encoder.encode, hp, if_false]
  · intro hlt
    show u32 _ = _
    rw [hret]
    exact Nat.mod_eq_of_lt hlt
  · intro h100 h4
    show u32 _ = _
    rw [hret, h4, h100]
    rfl

/-- Witness for C2, amended: a symbol of 100 bytes and an id of 4 bytes give
104. -/
theorem payload_encode_returns_u32_sum_witness :
    ∃ r, payload_encoder.encode hundred_encoder () mem_aa 4096 = some r ∧ r.ret = 104 := by
  obtain ⟨r, hr, _, _, h104⟩ :=
    payload_encode_returns_u32_sum hundred_encoder () mem_aa 4096 (by decide)
  exact ⟨r, hr, h104 rfl rfl⟩

/-- C3: the payload holds the symbol data first and the id second.
`payload_encoder::encode(payload)` is the wrapped `encode` called with the data
at offset 0 and the id at offset `symbol_size()`, and these regions share no
address.  So for a wrapped encoder that writes the `symbol_size()` bytes `D` at
the data pointer and the bytes `I` at the id pointer it is handed, bytes
`[0, symbol_size)` of the payload are `D` and bytes
`[symbol_size, symbol_size + bytes_used)` are `I`. -/
theorem payload_layout_data_then_id {σ : Type} (W : super_encoder σ) (s : σ) (mem : Mem)
    (payload : Nat) (D I : List Nat)
    (hp : payload ≠ 0)
    (hD : D.length = W.symbol_size s)
    (hW : ∀ symbol_data symbol_id,
      (W.encode s mem symbol_data symbol_id).mem
          = store_bytes (store_bytes mem symbol_data D) symbol_id I ∧
        (W.encode s mem symbol_data symbol_id).ret = I.length) :
    ∃ r, payload_encoder.encode W s mem payload = some r ∧
      r.mem = (W.encode s mem (payload + 0) (payload + W.symbol_size s)).mem ∧
      r.coder = (W.encode s mem (payload + 0) (payload + W.symbol_size s)).coder ∧
      read_bytes r.mem payload (W.symbol_size s) = D ∧
      read_bytes r.mem (payload + W.symbol_size s)
        (W.encode s mem payload (payload + W.symbol_size s)).ret = I ∧
      read_bytes r.mem payload
        (W.symbol_size s + (W.encode s mem payload (payload + W.symbol_size s)).ret)
        = D ++ I ∧
      (∀ i j, i < W.symbol_size s → payload + i ≠ payload + W.symbol_size s + j) := by
  obtain ⟨hmem, hret⟩ := hW payload (payload + W.symbol_size s)
  have hdata : read_bytes (store_bytes (store_bytes mem payload D)
      (payload + W.symbol_size s) I) payload (W.symbol_size s) = D := by
    rw [read_bytes_store_bytes_below _ _ _ _ _ (le_refl _), ← hD]
    exact read_bytes_store_bytes mem payload D
  have hidb : read_bytes (store_bytes (store_bytes mem payload D)
      (payload + W.symbol_size s) I) (payload + W.symbol_size s) I.length = I :=
    read_bytes_store_bytes _ _ I
  refine ⟨{ coder := (W.encode s mem payload (payload + W.symbol_size s)).coder
            mem := (W.encode s mem payload (payload + W.symbol_size s)).mem
            ret := u32 ((W.encode s mem payload (payload + W.symbol_size s)).ret
              + W.symbol_size (W.encode s mem payload (payload + W.symbol_size s)).coder) },
    ?_, rfl, rfl, ?_, ?_, ?_, ?_⟩
  · simp only [payload_encoder.encode, hp, if_false]
  · show read_bytes (W.encode s mem payload (payload + W.symbol_size s)).mem _ _ = D
    rw [hmem]
    exact hdata
  · show read_bytes (W.encode s mem payload (payload + W.symbol_size s)).mem _ _ = I
    rw [hmem, hret]
    exact hidb
  · show read_bytes (W.encode s mem payload (payload + W.symbol_size s)).mem _ _ = D ++ I
    rw [hmem, hret, read_bytes_add, hdata, hidb]
  · intro i j hi
    omega

/-- Witness for C3: a payload at address 4096 for symbols of 4 bytes and ids
of 3 bytes reads back as `[9, 9, 9, 9, 1, 2, 3]`. -/
theorem payload_layout_data_then_id_witness :
    ∃ r, payload_encoder.encode small_encoder () mem_aa 4096 = some r ∧
      read_bytes r.mem 4096 7 = [9, 9, 9, 9, 1, 2, 3] := by
  obtain ⟨r, hr, _, _, _, _, hall, _⟩ :=
    payload_layout_data_then_id small_encoder () mem_aa 4096 [9, 9, 9, 9] [1, 2, 3]
      (by decide) rfl (fun _ _ => ⟨rfl, rfl⟩)
  exact ⟨r, hr, hall⟩

/-! ## The Vandermonde matrix: claim -/

/-- Entry `j` of a list of iterates. -/
theorem iterate_multiply_power (e j : Nat) :
    (binary8_multiply e)^[j] 1 = binary8_power e j := by
  induction j with
  | zero => rfl
  | succ k ih => rw [Function.iterate_succ_apply', ih, binary8_power]

/-- Indexing a flattened table whose rows all have `n` entries. -/
theorem flatten_getElem?_uniform {α : Type} (n : Nat) (L : List (List α))
    (hL : ∀ row ∈ L, row.length = n) (i j : Nat) (hj : j < n) (row : List α)
    (hi : L[i]? = some row) :
    L.flatten[i * n + j]? = row[j]? := by
  induction L generalizing i with
  | nil => simp at hi
  | cons x xs ih =>
    have hx : x.length = n := hL x (List.mem_cons_self x xs)
    cases i with
    | zero =>
      simp only [List.getElem?_cons_zero, Option.some.injEq] at hi
      subst hi
      simp only [List.flatten_cons, Nat.zero_mul, Nat.zero_add]
      exact List.getElem?_append_left (by omega)
    | succ i =>
      simp only [List.getElem?_cons_succ] at hi
      have hxs : ∀ r ∈ xs, r.length = n := fun r hr => hL r (List.mem_cons_of_mem x hr)
      have hidx : (i + 1) * n + j = x.length + (i * n + j) := by
        rw [hx, Nat.succ_mul]; omega
      rw [List.flatten_cons, hidx, List.getElem?_append_right (by omega),
        Nat.add_sub_cancel_left]
      exact ih hxs i hi

/-- The rows of the table: row `i < 255` lists the iterated products of
`nonzero_element(i)`. -/
theorem construct_rows (k i : Nat) (hi : i < 255) :
    vandermonde_matrix.coefficients (vandermonde_matrix.construct k) i
      = some (List.iterate (binary8_multiply (nonzero_element i)) 1 k) := by
  have h1 : i < binary8_order - 1 := hi
  simp only [vandermonde_matrix.coefficients, h1, if_true, vandermonde_matrix.construct,
    List.getElem?_map, List.getElem?_iterate _ _ _ _ h1, Option.map_some',
    iterate_multiply_power, nonzero_element]

/-- The table built for ten symbols, read row by row, is the array
`test_values` of the test. -/
theorem test_values_table :
    (vandermonde_matrix.construct 10).m_matrix.flatten = test_values := by
  decide!

/-- C11: for `binary8` (order 256) and every `symbols = k` the Vandermonde matrix
has exactly `q - 1 = 255` rows; `coefficients(i)` succeeds for every row
`i < 255` (and fails beyond), has `k` entries, entry `j` is
`pow(nonzero_element(i), j)` and entry `0` is `1`.  For `k = 10` entry `j` of
row `i` is `test_values[i * 10 + j]`, row 0 is ten ones and row 1 is
`[1, 2, 4, 8, 16, 32, 64, 128, 29, 58]`. -/
theorem vandermonde_matrix_entries (k : Nat) :
    (vandermonde_matrix.construct k).m_matrix.length = binary8_order - 1 ∧
    binary8_order - 1 = 255 ∧
    (∀ i, i < 255 → ∃ row,
      vandermonde_matrix.coefficients (vandermonde_matrix.construct k) i = some row ∧
      row.length = k ∧
      (∀ j, j < k → row[j]? = some (binary8_power (nonzero_element i) j)) ∧
      (0 < k → row[0]? = some 1)) ∧
    (∀ i, 255 ≤ i →
      vandermonde_matrix.coefficients (vandermonde_matrix.construct k) i = none) ∧
    (∀ i j, i < 255 → j < 10 → ∃ row v,
      vandermonde_matrix.coefficients (vandermonde_matrix.construct 10) i = some row ∧
      row[j]? = some v ∧ test_values[i * 10 + j]? = some v) ∧
    vandermonde_matrix.coefficients (vandermonde_matrix.construct 10) 0
      = some [1, 1, 1, 1, 1, 1, 1, 1, 1, 1] ∧
    vandermonde_matrix.coefficients (vandermonde_matrix.construct 10) 1
      = some [1, 2, 4, 8, 16, 32, 64, 128, 29, 58] := by
  have hentry : ∀ (n i j : Nat), j < n →
      (List.iterate (binary8_multiply (nonzero_element i)) 1 n)[j]?
        = some (binary8_power (nonzero_element i) j) := by
    intro n i j hj
    rw [List.getElem?_iterate _ _ _ _ hj, iterate_multiply_power]
  refine ⟨?_, rfl, ?_, ?_, ?_, ?_, ?_⟩
  · simp only [vandermonde_matrix.construct, List.length_map, List.length_iterate]
  · intro i hi
    refine ⟨_, construct_rows k i hi, List.length_iterate _ _ _, ?_, ?_⟩
    · intro j hj
      exact hentry k i j hj
    · intro hk
      exact hentry k i 0 hk
  · intro i hi
    have h1 : ¬ (i < binary8_order - 1) := by
      simp only [binary8_order]; omega
    simp only [vandermonde_matrix.coefficients, h1, if_false]
  · intro i j hi hj
    refine ⟨_, _, construct_rows 10 i hi, hentry 10 i j hj, ?_⟩
    rw [← test_values_table, ← hentry 10 i j hj]
    apply flatten_getElem?_uniform 10 _ _ i j hj
    · have h1 : i < binary8_order - 1 := hi
      simp only [vandermonde_matrix.construct, List.getElem?_map,
        List.getElem?_iterate _ _ _ _ h1, Option.map_some', iterate_multiply_power, nonzero_element]
    · intro row hrow
      simp only [vandermonde_matrix.construct, List.mem_map] at hrow
      obtain ⟨e, _, he⟩ := hrow
      rw [← he]
      exact List.length_iterate _ _ _
  · decide!
  · decide!

/-! ## Partitioning and the storage decoder: claims -/

section partitioning

open rfc5052_partitioning_scheme


/-- Offsets are consecutive: each block starts where the previous one ends. -/
theorem byte_offset_succ (p : rfc5052_partitioning_scheme) (i : Nat) :
    p.byte_offset (i + 1) = p.byte_offset i + p.length i := by
  simp [byte_offset, List.range_succ]

/-- Closed form of the offsets. -/
theorem byte_offset_eq_min (p : rfc5052_partitioning_scheme) (i : Nat) :
    p.byte_offset i = min (i * p.block_capacity) p.m_object_size := by
  induction i with
  | zero => simp [byte_offset]
  | succ k ih =>
    rw [byte_offset_succ, ih, length, Nat.succ_mul]
    simp only [Nat.min_def]
    split_ifs <;> omega

/-- Rounding up: `ceil(n / d) * d` reaches `n`, and one block less does not. -/
theorem ceil_div_bounds (n d : Nat) (hd : 0 < d) :
    n ≤ ((n + d - 1) / d) * d ∧ (0 < n → ((n + d - 1) / d - 1) * d < n) := by
  have h1 := Nat.div_add_mod (n + d - 1) d
  have h2 := Nat.mod_lt (n + d - 1) hd
  have h3 : ((n + d - 1) / d) * d = d * ((n + d - 1) / d) := Nat.mul_comm _ _
  constructor
  · omega
  · intro hn
    have h4 : 1 ≤ (n + d - 1) / d := (Nat.le_div_iff_mul_le hd).mpr (by omega)
    have h5 : ((n + d - 1) / d - 1) * d = ((n + d - 1) / d) * d - d := by
      rw [Nat.sub_mul, Nat.one_mul]
    have h6 : d ≤ ((n + d - 1) / d) * d := by
      calc d = 1 * d := (Nat.one_mul d).symm
        _ ≤ ((n + d - 1) / d) * d := Nat.mul_le_mul_right d h4
    omega

/-- The blocks reach the end of the object, and the last block is not empty. -/
theorem block_count_bounds (p : rfc5052_partitioning_scheme)
    (hcap : 0 < p.block_capacity) (hobj : 0 < p.m_object_size) :
    p.m_object_size ≤ p.block_count * p.block_capacity ∧
      (p.block_count - 1) * p.block_capacity < p.m_object_size := by
  obtain ⟨h1, h2⟩ := ceil_div_bounds p.m_object_size p.block_capacity hcap
  have h4 : 1 ≤ (p.m_object_size + p.block_capacity - 1) / p.block_capacity :=
    (Nat.le_div_iff_mul_le hcap).mpr (by omega)
  have h5 : p.block_count = (p.m_object_size + p.block_capacity - 1) / p.block_capacity := by
    simp only [block_count]
    omega
  rw [h5]
  exact ⟨h1, h2 hobj⟩

/-- A block's decoder has room for the block's part of the object. -/
theorem length_le_block_size (p : rfc5052_partitioning_scheme)
    (hs : 0 < p.m_max_symbol_size) (i : Nat) :
    p.length i ≤ p.symbols i * p.symbol_size i := by
  simp only [symbols, symbol_size]
  split_ifs with h
  · simp only [length, block_capacity]
    exact Nat.min_le_left _ _
  · exact (ceil_div_bounds (p.length i) p.m_max_symbol_size hs).1

/-- The decoders' storage is at least the sum of the block lengths. -/
theorem byte_offset_le_sum_block_size (p : rfc5052_partitioning_scheme)
    (hs : 0 < p.m_max_symbol_size) (n : Nat) :
    p.byte_offset n ≤ ((List.range n).map (fun i => p.symbols i * p.symbol_size i)).sum := by
  induction n with
  | zero => simp [byte_offset]
  | succ k ih =>
    rw [byte_offset_succ]
    simp only [List.range_succ, List.map_append, List.sum_append, List.map_cons, List.map_nil,
      List.sum_cons, List.sum_nil, Nat.add_zero]
    exact Nat.add_le_add ih (length_le_block_size p hs k)

/-- The decoders' storage covers the object. -/
theorem object_size_le_total_block_size (p : rfc5052_partitioning_scheme)
    (h1 : 0 < p.m_max_symbols) (h2 : 0 < p.m_max_symbol_size) :
    p.m_object_size ≤ p.total_block_size := by
  have hcap : 0 < p.block_capacity := Nat.mul_pos h1 h2
  have hle := byte_offset_le_sum_block_size p h2 p.block_count
  rw [byte_offset_eq_min] at hle
  by_cases hobj : 0 < p.m_object_size
  · have hb := (block_count_bounds p hcap hobj).1
    rw [Nat.min_eq_right hb] at hle
    exact hle
  · omega

/-- C12: for positive `max_symbols`, `max_symbol_size` and `object_size` the
block ranges `[byte_offset(i), byte_offset(i) + length(i))` are contiguous
(`byte_offset(0) = 0`, `byte_offset(i + 1) = byte_offset(i) + length(i)`), none
is empty, the last one ends at `object_size`, every byte of
`[0, object_size)` lies in exactly one of them and they contain nothing else,
and `total_block_size() >= object_size`. -/
theorem partitioning_covers_object (p : rfc5052_partitioning_scheme)
    (h1 : 0 < p.m_max_symbols) (h2 : 0 < p.m_max_symbol_size) (h3 : 0 < p.m_object_size) :
    p.byte_offset 0 = 0 ∧
    (∀ i, p.byte_offset (i + 1) = p.byte_offset i + p.length i) ∧
    (∀ i, i < p.block_count → 0 < p.length i) ∧
    p.byte_offset p.block_count = p.m_object_size ∧
    (∀ x, x < p.m_object_size →
      ∃! i, i < p.block_count ∧ p.byte_offset i ≤ x ∧ x < p.byte_offset i + p.length i) ∧
    (∀ i x, i < p.block_count → p.byte_offset i ≤ x → x < p.byte_offset i + p.length i →
      x < p.m_object_size) ∧
    p.m_object_size ≤ p.total_block_size := by
  have hcap : 0 < p.block_capacity := Nat.mul_pos h1 h2
  obtain ⟨hb1, hb2⟩ := block_count_bounds p hcap h3
  have hend : ∀ i, p.byte_offset i + p.length i
      = min ((i + 1) * p.block_capacity) p.m_object_size := by
    intro i
    rw [← byte_offset_succ, byte_offset_eq_min]
  refine ⟨rfl, byte_offset_succ p, ?_, ?_, ?_, ?_, object_size_le_total_block_size p h1 h2⟩
  · intro i hi
    have h4 : i * p.block_capacity ≤ (p.block_count - 1) * p.block_capacity :=
      Nat.mul_le_mul_right _ (by omega)
    simp only [length, Nat.min_def]
    split_ifs <;> omega
  · rw [byte_offset_eq_min, Nat.min_eq_right hb1]
  · intro x hx
    refine ⟨x / p.block_capacity, ⟨?_, ?_, ?_⟩, ?_⟩
    · have h4 : x / p.block_capacity * p.block_capacity ≤ x := Nat.div_mul_le_self x _
      by_contra hc
      have h5 : p.block_count * p.block_capacity ≤ x / p.block_capacity * p.block_capacity :=
        Nat.mul_le_mul_right _ (by omega)
      omega
    · rw [byte_offset_eq_min]
      have h4 : x / p.block_capacity * p.block_capacity ≤ x := Nat.div_mul_le_self x _
      simp only [Nat.min_def]
      split_ifs <;> omega
    · rw [hend]
      have h4 : x < (x / p.block_capacity + 1) * p.block_capacity := by
        rw [Nat.mul_comm]
        exact Nat.lt_mul_div_succ x hcap
      simp only [Nat.min_def]
      split_ifs <;> omega
    · intro i ⟨_, hlo, hhi⟩
      rw [byte_offset_eq_min] at hlo
      rw [hend] at hhi
      have hlo2 : i * p.block_capacity ≤ x := by
        simp only [Nat.min_def] at hlo
        split_ifs at hlo <;> omega
      have hhi2 : x < (i + 1) * p.block_capacity := by
        simp only [Nat.min_def] at hhi
        split_ifs at hhi <;> omega
      have h5 : i ≤ x / p.block_capacity := (Nat.le_div_iff_mul_le hcap).mpr hlo2
      have h6 : x / p.block_capacity < i + 1 := (Nat.div_lt_iff_lt_mul hcap).mpr hhi2
      omega
  · intro i x _ _ hhi
    rw [hend] at hhi
    simp only [Nat.min_def] at hhi
    split_ifs at hhi <;> omega


/-- Offsets grow with the block id. -/
theorem byte_offset_mono (p : rfc5052_partitioning_scheme) (i j : Nat) (h : i ≤ j) :
    p.byte_offset i ≤ p.byte_offset j := by
  rw [byte_offset_eq_min, byte_offset_eq_min]
  have h1 : i * p.block_capacity ≤ j * p.block_capacity := Nat.mul_le_mul_right _ h
  simp only [Nat.min_def]
  split_ifs <;> omega

/-- A block's part of the object lies within what is left of the object at
its offset. -/
theorem length_le_rest (p : rfc5052_partitioning_scheme) (i : Nat) :
    p.length i ≤ p.m_object_size - p.byte_offset i := by
  have h := byte_offset_succ p i
  have h2 := byte_offset_eq_min p (i + 1)
  have h3 : min ((i + 1) * p.block_capacity) p.m_object_size ≤ p.m_object_size :=
    Nat.min_le_right _ _
  omega

/-- A block ends at or before the start of every later block. -/
theorem block_end_le_byte_offset (p : rfc5052_partitioning_scheme) (i j : Nat) (h : i < j) :
    p.byte_offset i + p.length i ≤ p.byte_offset j := by
  rw [← byte_offset_succ]
  exact byte_offset_mono p (i + 1) j h

/-- Witness for C12: an object of 5000 bytes in blocks of at most 16 symbols of
160 bytes: two blocks, the second starting at 2560. -/
theorem partitioning_covers_object_witness :
    rfc5052_partitioning_scheme.block_count
        { m_max_symbols := 16, m_max_symbol_size := 160, m_object_size := 5000 } = 2 ∧
    rfc5052_partitioning_scheme.byte_offset
        { m_max_symbols := 16, m_max_symbol_size := 160, m_object_size := 5000 } 1 = 2560 ∧
    rfc5052_partitioning_scheme.byte_offset
        { m_max_symbols := 16, m_max_symbol_size := 160, m_object_size := 5000 } 2 = 5000 ∧
    5000 ≤ rfc5052_partitioning_scheme.total_block_size
        { m_max_symbols := 16, m_max_symbol_size := 160, m_object_size := 5000 } :=
  have h := partitioning_covers_object
    { m_max_symbols := 16, m_max_symbol_size := 160, m_object_size := 5000 }
    (by decide) (by decide) (by decide)
  ⟨rfl, rfl, h.2.2.2.1, h.2.2.2.2.2.2⟩

/-- C13 as stated fails: for an object of 5000 bytes at address 4096 and blocks
of at most 16 symbols of 160 bytes, `build(0)` binds the decoder to a view of
5000 bytes, not of the 2560 bytes of block 0, and the views of blocks 0 and 1
both contain address 6656. -/
theorem storage_decoder_view_is_remainder :
    (storage_decoder.build rfc5052 recording
        (storage_decoder.construct rfc5052 { max_symbols := 16, max_symbol_size := 160 }
          { m_data := 4096, m_size := 5000 }) 0).storage
      = some { m_data := 4096, m_size := 5000 } ∧
    rfc5052_partitioning_scheme.length
        { m_max_symbols := 16, m_max_symbol_size := 160, m_object_size := 5000 } 0 = 2560 ∧
    (storage_decoder.build rfc5052 recording
        (storage_decoder.construct rfc5052 { max_symbols := 16, max_symbol_size := 160 }
          { m_data := 4096, m_size := 5000 }) 1).storage
      = some { m_data := 6656, m_size := 2440 } ∧
    (4096 ≤ 6656 ∧ 6656 < 4096 + 5000) ∧ (6656 ≤ 6656 ∧ 6656 < 6656 + 2440) := by
  refine ⟨rfl, rfl, rfl, ?_, ?_⟩ <;> decide

/-- C13, amended: `build(block_id)` binds the decoder built for that block (via
`set_symbols`) to the storage view `m_data + byte_offset(block_id)`: it starts
at `m_partitioning.byte_offset(block_id)` within the destination object and its
length is what is left of the object from there, `m_size - byte_offset`.  For
the default partitioning that length is at least the block's length, and the
block's own range `[byte_offset, byte_offset + length)` within its view ends at
or before the start of the view of every later block. -/
theorem storage_decoder_build_binds_rest {π δ : Type} (P : block_partitioning π)
    (D : decoder_type δ) (f : factory) (data : mutable_storage) (block_id : Nat) :
    storage_decoder.build P D (storage_decoder.construct P f data) block_id
      = D.set_symbols
          (D.build f
            (P.symbols (P.construct f.max_symbols f.max_symbol_size data.m_size) block_id)
            (P.symbol_size (P.construct f.max_symbols f.max_symbol_size data.m_size) block_id))
          { m_data := data.m_data
              + P.byte_offset (P.construct f.max_symbols f.max_symbol_size data.m_size) block_id
            m_size := data.m_size
              - P.byte_offset (P.construct f.max_symbols f.max_symbol_size data.m_size) block_id } ∧
    rfc5052_partitioning_scheme.length
        { m_max_symbols := f.max_symbols, m_max_symbol_size := f.max_symbol_size,
          m_object_size := data.m_size } block_id
      ≤ data.m_size - rfc5052.byte_offset
          (rfc5052.construct f.max_symbols f.max_symbol_size data.m_size) block_id ∧
    (∀ j, block_id < j →
      data.m_data + rfc5052.byte_offset
          (rfc5052.construct f.max_symbols f.max_symbol_size data.m_size) block_id
        + rfc5052_partitioning_scheme.length
          { m_max_symbols := f.max_symbols, m_max_symbol_size := f.max_symbol_size,
            m_object_size := data.m_size } block_id
      ≤ data.m_data + rfc5052.byte_offset
          (rfc5052.construct f.max_symbols f.max_symbol_size data.m_size) j) := by
  refine ⟨rfl, ?_, ?_⟩
  · exact length_le_rest _ block_id
  · intro j hj
    have h : rfc5052_partitioning_scheme.byte_offset
          { m_max_symbols := f.max_symbols, m_max_symbol_size := f.max_symbol_size,
            m_object_size := data.m_size } block_id
        + rfc5052_partitioning_scheme.length
          { m_max_symbols := f.max_symbols, m_max_symbol_size := f.max_symbol_size,
            m_object_size := data.m_size } block_id
        ≤ rfc5052_partitioning_scheme.byte_offset
          { m_max_symbols := f.max_symbols, m_max_symbol_size := f.max_symbol_size,
            m_object_size := data.m_size } j :=
      block_end_le_byte_offset _ block_id j hj
    rw [Nat.add_assoc]
    exact Nat.add_le_add_left h data.m_data

end partitioning

/-! ## The encoder layers: further claims -/

/-- Memory after `std::copy(src, src + n, dst)` when the destination does not
start inside the source range. -/
theorem copy_spec (mem : Mem) (src dst n : Nat) (h : dst ≤ src ∨ src + n ≤ dst) :
    copy mem src (src + n) dst
      = fun a => if dst ≤ a ∧ a < dst + n then mem (src + (a - dst)) else mem a := by
  unfold copy
  rw [Nat.add_sub_cancel_left]
  exact copy_loop_spec mem src dst n n h (le_refl n)

/-- C15: `payload_encoder::payload_size()` is `symbol_size() + header_size()` of
the wrapped layers as a `uint32_t`, that is modulo `2 ^ 32`; with
`symbol_size() = 100` and a header of 4 bytes it is 104, and when the wrapped
`encode` reports those 4 bytes, `encode` on a non-null payload returns the same
104. -/
theorem payload_size_is_symbol_plus_header {σ : Type} (W : super_encoder σ) (s : σ)
    (mem : Mem) (payload : Nat) (hp : payload ≠ 0) :
    payload_encoder.payload_size W s = (W.symbol_size s + W.header_size s) % 2 ^ 32 ∧
    (W.symbol_size s = 100 → W.header_size s = 4 →
      payload_encoder.payload_size W s = 104 ∧
      ((W.encode s mem payload (payload + W.symbol_size s)).ret = 4 →
        ∃ r, payload_encoder.encode W s mem payload = some r ∧
          r.ret = payload_encoder.payload_size W s)) := by
  refine ⟨rfl, ?_⟩
  intro h100 h4
  have hsize : payload_encoder.payload_size W s = 104 := by
    simp only [payload_encoder.payload_size, h100, h4]
    rfl
  refine ⟨hsize, ?_⟩
  intro hused
  refine ⟨{ coder := (W.encode s mem payload (payload + W.symbol_size s)).coder
            mem := (W.encode s mem payload (payload + W.symbol_size s)).mem
            ret := u32 ((W.encode s mem payload (payload + W.symbol_size s)).ret
              + W.symbol_size (W.encode s mem payload (payload + W.symbol_size s)).coder) },
    ?_, ?_⟩
  · simp only [payload_encoder.encode, hp, if_false]
  · show u32 _ = _
    rw [W.encode_symbol_size, hused, h100, hsize]
    rfl

/-- Witness for C15: symbols of 100 bytes and a header that is the 4-byte id. -/
theorem payload_size_is_symbol_plus_header_witness :
    payload_encoder.payload_size hundred_encoder () = 104 ∧
    ∃ r, payload_encoder.encode hundred_encoder () mem_aa 4096 = some r ∧
      r.ret = payload_encoder.payload_size hundred_encoder () :=
  have h := payload_size_is_symbol_plus_header hundred_encoder () mem_aa 4096 (by decide)
  ⟨(h.2 rfl rfl).1, (h.2 rfl rfl).2 rfl⟩

/-- C16: when `symbol_id` is not aligned, `align_symbol_id_encoder::encode` runs
the wrapped `encode` on the scratch buffer `m_temp_id` and then copies exactly
`bytes_used` bytes: the caller's bytes at index `< bytes_used` equal the scratch
bytes, and the copy changes nothing else, so every caller byte at index
`>= bytes_used` is as the wrapped `encode` left it.  When `symbol_id` is
aligned the result is exactly that of the wrapped `encode` on the caller's
buffer: the layer neither reads nor writes the scratch buffer, whose bytes are
unchanged whenever the wrapped `encode` leaves them alone.  In both cases
the scratch vector itself (address and size) is kept.  The caller's buffer and
the scratch buffer are disjoint, and `bytes_used` is at most the scratch size. -/
theorem align_encode_routes_through_scratch {σ : Type} (W : super_encoder σ)
    (is_aligned : Nat → Bool) (c : align_symbol_id_encoder σ) (mem : Mem)
    (symbol_data symbol_id : Nat)
    (hdata : symbol_data ≠ 0) (hid : symbol_id ≠ 0)
    (hused : (W.encode c.super mem symbol_data c.m_temp_id.data).ret ≤ c.m_temp_id.size)
    (hsep : symbol_id + c.m_temp_id.size ≤ c.m_temp_id.data ∨
      c.m_temp_id.data + c.m_temp_id.size ≤ symbol_id) :
    (is_aligned symbol_id = false →
      ∃ r, align_symbol_id_encoder.encode W is_aligned c mem symbol_data symbol_id = some r ∧
        r.ret = (W.encode c.super mem symbol_data c.m_temp_id.data).ret ∧
        r.coder.super = (W.encode c.super mem symbol_data c.m_temp_id.data).coder ∧
        r.coder.m_temp_id = c.m_temp_id ∧
        (∀ i, i < r.ret →
          r.mem (symbol_id + i)
            = (W.encode c.super mem symbol_data c.m_temp_id.data).mem (c.m_temp_id.data + i) ∧
          r.mem (symbol_id + i) = r.mem (c.m_temp_id.data + i)) ∧
        (∀ i, r.ret ≤ i →
          r.mem (symbol_id + i)
            = (W.encode c.super mem symbol_data c.m_temp_id.data).mem (symbol_id + i)) ∧
        (∀ a, ¬ (symbol_id ≤ a ∧ a < symbol_id + r.ret) →
          r.mem a = (W.encode c.super mem symbol_data c.m_temp_id.data).mem a)) ∧
    (is_aligned symbol_id = true →
      ∃ r, align_symbol_id_encoder.encode W is_aligned c mem symbol_data symbol_id = some r ∧
        r.ret = (W.encode c.super mem symbol_data symbol_id).ret ∧
        r.coder.super = (W.encode c.super mem symbol_data symbol_id).coder ∧
        r.coder.m_temp_id = c.m_temp_id ∧
        r.mem = (W.encode c.super mem symbol_data symbol_id).mem ∧
        ((∀ i, i < c.m_temp_id.size →
            (W.encode c.super mem symbol_data symbol_id).mem (c.m_temp_id.data + i)
              = mem (c.m_temp_id.data + i)) →
          ∀ i, i < c.m_temp_id.size →
            r.mem (c.m_temp_id.data + i) = mem (c.m_temp_id.data + i))) := by
  constructor
  · intro hal
    have hcopy : symbol_id ≤ c.m_temp_id.data ∨
        c.m_temp_id.data + (W.encode c.super mem symbol_data c.m_temp_id.data).ret
          ≤ symbol_id := by omega
    have hmem := copy_spec (W.encode c.super mem symbol_data c.m_temp_id.data).mem
      c.m_temp_id.data symbol_id
      (W.encode c.super mem symbol_data c.m_temp_id.data).ret hcopy
    refine ⟨{ coder := { c with
                super := (W.encode c.super mem symbol_data c.m_temp_id.data).coder }
              mem := copy (W.encode c.super mem symbol_data c.m_temp_id.data).mem
                c.m_temp_id.data
                (c.m_temp_id.data + (W.encode c.super mem symbol_data c.m_temp_id.data).ret)
                symbol_id
              ret := (W.encode c.super mem symbol_data c.m_temp_id.data).ret },
      ?_, rfl, rfl, rfl, ?_, ?_, ?_⟩
    · simp only [align_symbol_id_encoder.encode, hdata, hid, hal, if_false, if_true]
    · intro i hi
      simp only [hmem] at hi ⊢
      have h1 : symbol_id ≤ symbol_id + i ∧ symbol_id + i
          < symbol_id + (W.encode c.super mem symbol_data c.m_temp_id.data).ret :=
        ⟨by omega, by omega⟩
      have h2 : ¬ (symbol_id ≤ c.m_temp_id.data + i ∧ c.m_temp_id.data + i
          < symbol_id + (W.encode c.super mem symbol_data c.m_temp_id.data).ret) := by
        omega
      simp only [h1, h2, and_self, if_true, if_false, Nat.add_sub_cancel_left]
    · intro i hi
      simp only [hmem] at hi ⊢
      have h1 : ¬ (symbol_id ≤ symbol_id + i ∧ symbol_id + i
          < symbol_id + (W.encode c.super mem symbol_data c.m_temp_id.data).ret) := by
        omega
      simp only [h1, if_false]
    · intro a ha
      simp only [hmem] at ha ⊢
      simp only [ha, if_false]
  · intro hal
    refine ⟨{ coder := { c with
                super := (W.encode c.super mem symbol_data symbol_id).coder }
              mem := (W.encode c.super mem symbol_data symbol_id).mem
              ret := (W.encode c.super mem symbol_data symbol_id).ret },
      ?_, rfl, rfl, rfl, rfl, fun h => h⟩
    simp [align_symbol_id_encoder.encode, hdata, hid, hal]

/-- Witness for C16: a caller buffer at the unaligned address 1001 and the
scratch vector at 4096. -/
theorem align_encode_routes_through_scratch_witness :
    ∃ r, align_symbol_id_encoder.encode small_encoder is_aligned_16 ready_guard mem_aa
        2000 1001 = some r ∧
      r.ret = 3 ∧ r.coder.m_temp_id = ready_guard.m_temp_id ∧
      read_bytes r.mem 1000 6 = [170, 1, 2, 3, 170, 170] ∧
      read_bytes r.mem 4096 4 = [1, 2, 3, 170] := by
  obtain ⟨r, hr, hret, _, htemp, _⟩ :=
    (align_encode_routes_through_scratch small_encoder is_aligned_16 ready_guard mem_aa
      2000 1001 (by decide) (by decide) (by decide) (by decide)).1 rfl
  have e : r = _ := Option.some.inj (hr.symm.trans rfl)
  refine ⟨r, hr, hret, htemp, ?_, ?_⟩
  · rw [e]
    rfl
  · rw [e]
    rfl

/-- C17: `recoding_symbol_id::write_id` samples exactly as
`random_uniform_symbol_id::write_id`: from the same generator state and
`id_size`, on the same memory and arguments, both fail together or both leave
the same memory, store the same pointer through `symbol_coefficients`, return
the same value and leave the generator in the same state. -/
theorem recoding_write_id_same_as_random_uniform {σ γ : Type} (R : random_source γ)
    (c : random_uniform_symbol_id σ γ) (d : recoding_symbol_id σ γ) (mem : Mem)
    (symbol_id out : Nat)
    (hsize : d.m_id_size = c.m_id_size)
    (hgen : d.m_random_generator = c.m_random_generator) :
    (recoding_symbol_id.write_id R d mem symbol_id out).map
        (fun r => (r.mem, r.symbol_coefficients, r.ret, r.coder.m_random_generator,
          r.coder.m_id_size))
      = (random_uniform_symbol_id.write_id R c mem symbol_id out).map
        (fun r => (r.mem, r.symbol_coefficients, r.ret, r.coder.m_random_generator,
          r.coder.m_id_size)) := by
  unfold recoding_symbol_id.write_id random_uniform_symbol_id.write_id
  rw [hsize, hgen]
  by_cases h1 : symbol_id = 0
  · simp only [h1, if_true, Option.map_none']
  · by_cases h2 : out = 0
    · simp only [h1, h2, if_true, if_false, Option.map_none']
    · simp only [h1, h2, if_false, Option.map_some']

/-- Witness for C17: both layers at generator state 250 with `id_size() = 3`. -/
theorem recoding_write_id_same_as_random_uniform_witness :
    (recoding_symbol_id.write_id counter_source
        ({ super := (), m_random_generator := 250, m_id_size := 3, m_coefficients := [1, 1] } :
          recoding_symbol_id Unit Nat) mem_aa 1000 8).map
        (fun r => (r.mem, r.symbol_coefficients, r.ret, r.coder.m_random_generator,
          r.coder.m_id_size))
      = (random_uniform_symbol_id.write_id counter_source
        ({ super := (), m_random_generator := 250, m_id_size := 3 } :
          random_uniform_symbol_id Unit Nat) mem_aa 1000 8).map
        (fun r => (r.mem, r.symbol_coefficients, r.ret, r.coder.m_random_generator,
          r.coder.m_id_size)) :=
  recoding_write_id_same_as_random_uniform counter_source _ _ mem_aa 1000 8 rfl rfl

end kodo
